import Mathlib

/-!
# Multiplier processor (`plugins/processors/multiplier/multiplier.go`)

A shallow embedding of the telegraf `multiplier` processor and the properties
of its rescale pass, its derived-percentage pass and its numeric coercions.

Layout of the development:

* `Flt` : IEEE-754 binary floating point values (binary64 and binary32) with
  round-to-nearest-even multiplication, division and conversions;
* `Value`, `Map`, `Metric` : the data model of a telegraf record;
* `Env` : the collaborators that live outside the source file (line parser,
  record constructor, implementation-dependent float-to-integer conversion);
* `Multiply`, `toFloat`, `Initialize`, `Apply` : the functions of the source;
* the theorems.
-/

set_option maxRecDepth 8000

namespace multiplier

/-! ## Floating point -/

/-- An IEEE-754 value: not-a-number, an infinity, or the finite number
`(-1)^neg * m * 2^e`.  Both Go `float64` and `float32` values live here; a
`float32` is a value that is representable with 24 bits of precision. -/
inductive Flt where
  | nan : Flt
  | inf (neg : Bool) : Flt
  | fin (neg : Bool) (m : Nat) (e : Int) : Flt
  deriving DecidableEq, Repr

/-- A binary interchange format: precision in bits, and the least and the
greatest exponent of the unit in the last place. -/
structure Fmt where
  prec : Nat
  eminUlp : Int
  emaxUlp : Int
  deriving DecidableEq, Repr

/-- Go `float64`. -/
def binary64 : Fmt := ⟨53, -1074, 971⟩

/-- Go `float32`. -/
def binary32 : Fmt := ⟨24, -149, 104⟩

/-- Number of binary digits of `n`, by halving at most `fuel` times. -/
def bitLenAux : Nat → Nat → Nat
  | 0, _ => 0
  | fuel + 1, n => if n = 0 then 0 else bitLenAux fuel (n / 2) + 1

/-- Number of binary digits of `n` (`0` for `0`). -/
def bitLen (n : Nat) : Nat := bitLenAux n n

/-- The integer `⌊log₂ (n / d)⌋` for positive `n` and `d`. -/
def ilog2Frac (n d : Nat) : Int :=
  let k : Int := (bitLen n : Int) - (bitLen d : Int)
  if (if 0 ≤ k then d * 2 ^ k.toNat ≤ n else d ≤ n * 2 ^ (-k).toNat) then k else k - 1

/-- Round the exact number `(-1)^neg * (n / d) * 2^e` (with `d ≠ 0`) to the
nearest value of the format, ties to even, overflowing to an infinity. -/
def roundFrac (fmt : Fmt) (neg : Bool) (n d : Nat) (e : Int) : Flt :=
  if n = 0 then .fin neg 0 0
  else
    let ev : Int := ilog2Frac n d + e
    let ulp : Int := max (ev - ((fmt.prec : Int) - 1)) fmt.eminUlp
    let s : Int := e - ulp
    let num : Nat := if 0 ≤ s then n * 2 ^ s.toNat else n
    let den : Nat := if 0 ≤ s then d else d * 2 ^ (-s).toNat
    let q : Nat := num / den
    let r : Nat := num % den
    let m : Nat := if den < 2 * r ∨ (2 * r = den ∧ q % 2 = 1) then q + 1 else q
    if m = 0 then .fin neg 0 0
    else if m = 2 ^ fmt.prec then
      (if fmt.emaxUlp < ulp + 1 then .inf neg else .fin neg (2 ^ (fmt.prec - 1)) (ulp + 1))
    else if fmt.emaxUlp < ulp then .inf neg
    else .fin neg m ulp

namespace Flt

/-- Whether the value compares equal to zero (`+0` or `-0`). -/
def isZero : Flt → Bool
  | .fin _ m _ => decide (m = 0)
  | _ => false

/-- The rational number denoted by a finite value. -/
def toRat : Flt → Option ℚ
  | .fin neg m e => some ((if neg then -1 else 1) * (m : ℚ) * (2 : ℚ) ^ e)
  | _ => none

/-- Conversion of an integer to `float64` (`float64(data)`). -/
def ofInt (n : Int) : Flt := roundFrac binary64 (decide (n < 0)) n.natAbs 1 0

/-- Product of two `float64` values. -/
def mul : Flt → Flt → Flt
  | .nan, _ => .nan
  | _, .nan => .nan
  | .inf s, .inf t => .inf (xor s t)
  | .inf s, .fin t m _ => if m = 0 then .nan else .inf (xor s t)
  | .fin s m _, .inf t => if m = 0 then .nan else .inf (xor s t)
  | .fin s m e, .fin t m' e' => roundFrac binary64 (xor s t) (m * m') 1 (e + e')

/-- Quotient of two `float64` values. -/
def div : Flt → Flt → Flt
  | .nan, _ => .nan
  | _, .nan => .nan
  | .inf _, .inf _ => .nan
  | .inf s, .fin t _ _ => .inf (xor s t)
  | .fin s _ _, .inf t => .fin (xor s t) 0 0
  | .fin s m e, .fin t m' e' =>
    if m' = 0 then (if m = 0 then .nan else .inf (xor s t))
    else roundFrac binary64 (xor s t) m m' (e - e')

/-- Narrowing of a `float64` to `float32` (`float32(x)`). -/
def toF32 : Flt → Flt
  | .fin s m e => roundFrac binary32 s m 1 e
  | x => x

/-- The integer `(-1)^neg * m`. -/
def signedNat (neg : Bool) (m : Nat) : Int := if neg then -(m : Int) else (m : Int)

/-- Truncation toward zero of a finite value; `none` for NaN and infinities. -/
def trunc : Flt → Option Int
  | .fin neg m e =>
    if 0 ≤ e then some (signedNat neg m * ((2 ^ e.toNat : Nat) : Int))
    else some (Int.tdiv (signedNat neg m) ((2 ^ (-e).toNat : Nat) : Int))
  | _ => none

/-- IEEE equality `==`: NaN differs from everything, the two zeros are equal. -/
def beq : Flt → Flt → Bool
  | .inf s, .inf t => s == t
  | .fin s m e, .fin t m' e' =>
    if m = 0 ∧ m' = 0 then true
    else s == t &&
      (if e' ≤ e then decide (m * 2 ^ (e - e').toNat = m') else decide (m = m' * 2 ^ (e' - e).toNat))
  | _, _ => false

end Flt

/-- Truncation toward zero of a rational number. -/
def ratTrunc (q : ℚ) : Int := if 0 ≤ q then ⌊q⌋ else ⌈q⌉

/-! ## Data model -/

/-- The integer types that `Multiply` converts a product back to. -/
inductive IntKind where
  | int | uint | int32 | uint32 | int64 | uint64
  deriving DecidableEq, Repr

/-- The dynamic type of a field value. -/
inductive GoType where
  | int | uint | int32 | uint32 | int64 | uint64 | float32 | float64
  | string | bool | other (name : String)
  deriving DecidableEq, Repr

/-- A field value (`interface{}`): a number of one of the eight types the
processor knows, a string, a boolean, or a value of some other dynamic type,
kept as its type name and printed form. -/
inductive Value where
  | int (data : Int)
  | uint (data : Nat)
  | int32 (data : Int)
  | uint32 (data : Nat)
  | int64 (data : Int)
  | uint64 (data : Nat)
  | float32 (data : Flt)
  | float64 (data : Flt)
  | string (data : String)
  | bool (data : Bool)
  | other (ty : String) (repr : String)
  deriving DecidableEq, Repr

namespace Value

/-- The dynamic type of a value. -/
def typeOf : Value → GoType
  | .int _ => .int
  | .uint _ => .uint
  | .int32 _ => .int32
  | .uint32 _ => .uint32
  | .int64 _ => .int64
  | .uint64 _ => .uint64
  | .float32 _ => .float32
  | .float64 _ => .float64
  | .string _ => .string
  | .bool _ => .bool
  | .other ty _ => .other ty

/-- Whether the value has one of the eight types of the switch in `Multiply`. -/
def isSupported : Value → Bool
  | .string _ => false
  | .bool _ => false
  | .other _ _ => false
  | _ => true

/-- Go `==` on two interface values: equal dynamic types and equal values,
floating point values compared as IEEE numbers. -/
def goEq : Value → Value → Bool
  | .float32 x, .float32 y => x.beq y
  | .float64 x, .float64 y => x.beq y
  | .float32 _, _ => false
  | .float64 _, _ => false
  | a, b => decide (a = b)

end Value

/-- A Go `map[string]α`, kept as a list of bindings; the binding of a key
is the first one in the list. -/
structure Map (α : Type) where
  items : List (String × α)
  deriving DecidableEq, Repr

namespace Map

variable {α : Type}

/-- The empty map, `make(map[string]α)`. -/
def empty : Map α := ⟨[]⟩

/-- First binding of `k` in a list of bindings. -/
def lookupKey (k : String) : List (String × α) → Option α
  | [] => none
  | (k', v) :: t => if k' = k then some v else lookupKey k t

/-- Replace the first binding of `k`, or add one at the end. -/
def insertKey (k : String) (v : α) : List (String × α) → List (String × α)
  | [] => [(k, v)]
  | (k', v') :: t => if k' = k then (k, v) :: t else (k', v') :: insertKey k v t

/-- The bindings whose key is not in `seen` and not bound earlier in the list. -/
def entriesAux (seen : List String) : List (String × α) → List (String × α)
  | [] => []
  | (k, v) :: t => if k ∈ seen then entriesAux seen t else (k, v) :: entriesAux (k :: seen) t

/-- The lookup `v, ok := m[k]`. -/
def get (m : Map α) (k : String) : Option α := lookupKey k m.items

/-- The presence test `_, ok := m[k]`. -/
def contains (m : Map α) (k : String) : Bool := (m.get k).isSome

/-- The assignment `m[k] = v`. -/
def set (m : Map α) (k : String) (v : α) : Map α := ⟨insertKey k v m.items⟩

/-- The bindings visited by `for k, v := range m`: each key once, with its value. -/
def entries (m : Map α) : List (String × α) := entriesAux [] m.items

end Map

/-- A telegraf record: name, tags, fields, timestamp and kind. -/
structure Metric where
  name : String
  tags : Map String
  fields : Map Value
  time : Int
  tp : Nat
  deriving DecidableEq, Repr

/-- A line written to standard output by one of the `fmt.Printf` calls. -/
inductive LogLine where
  | multiplied (name field : String) (old : Value) (factor : Flt) (new : Value)
  | cannotCopy (err : String)
  | cannotMultiply (factor : Flt) (value : Value)
  | cannotFloat (value : Value)
  | parseError (err : String)
  deriving DecidableEq, Repr

/-- What the source file takes from outside: the width of `int`, the result of
a float-to-integer conversion whose value does not fit (implementation
dependent in Go), the influx line parser, and the error, if any, with which
`metric.New` rejects its arguments. -/
structure Env where
  intBits : Nat
  convOOR : IntKind → Flt → Int
  parseLine : String → Except String Metric
  newError : String → Map String → Map Value → Int → Nat → Option String

/-- Modelled from the spec: `metric.New` of the telegraf `metric` package, a
fallible capability to construct a new record from name, tags, fields,
timestamp and kind. -/
def metricNew (env : Env) (name : String) (tags : Map String) (fields : Map Value)
    (tm : Int) (tp : Nat) : Except String Metric :=
  match env.newError name tags fields tm tp with
  | some err => .error err
  | none => .ok ⟨name, tags, fields, tm, tp⟩

namespace IntKind

/-- Width in bits. -/
def bits (env : Env) : IntKind → Nat
  | .int => env.intBits
  | .uint => env.intBits
  | .int32 => 32
  | .uint32 => 32
  | .int64 => 64
  | .uint64 => 64

/-- Whether the type is signed. -/
def signed : IntKind → Bool
  | .int => true
  | .int32 => true
  | .int64 => true
  | _ => false

/-- Whether the integer `n` is a value of the type. -/
def inRange (env : Env) (k : IntKind) (n : Int) : Bool :=
  if k.signed then decide (-((2 ^ (k.bits env - 1) : Nat) : Int) ≤ n ∧ n < ((2 ^ (k.bits env - 1) : Nat) : Int))
  else decide (0 ≤ n ∧ n < ((2 ^ k.bits env : Nat) : Int))

/-- Reduce an integer into the range of the type (two's complement). -/
def wrap (env : Env) (k : IntKind) (n : Int) : Int :=
  if k.signed then
    (n + ((2 ^ (k.bits env - 1) : Nat) : Int)) % ((2 ^ k.bits env : Nat) : Int) - ((2 ^ (k.bits env - 1) : Nat) : Int)
  else n % ((2 ^ k.bits env : Nat) : Int)

end IntKind

/-- The conversion `T(x)` of a `float64` to the integer type `T`: the fraction
is discarded; when the truncated value is not a value of `T` the result is
whatever the implementation gives. -/
def Env.toInt (env : Env) (k : IntKind) (x : Flt) : Int :=
  match x.trunc with
  | some n => if k.inRange env n then n else k.wrap env (env.convOOR k x)
  | none => k.wrap env (env.convOOR k x)

/-! ## The processor -/

/-- The method `Multiply` (lines 120-143); the receiver is not used by the body. -/
def Multiply (env : Env) (value : Value) (factor : Flt) : Value × List LogLine :=
  match value with
  | .int data => (.int (env.toInt .int (factor.mul (Flt.ofInt data))), [])
  | .uint data => (.uint (env.toInt .uint (factor.mul (Flt.ofInt data))).toNat, [])
  | .int32 data => (.int32 (env.toInt .int32 (factor.mul (Flt.ofInt data))), [])
  | .uint32 data => (.uint32 (env.toInt .uint32 (factor.mul (Flt.ofInt data))).toNat, [])
  | .int64 data => (.int64 (env.toInt .int64 (factor.mul (Flt.ofInt data))), [])
  | .uint64 data => (.uint64 (env.toInt .uint64 (factor.mul (Flt.ofInt data))).toNat, [])
  | .float32 data => (.float32 (factor.mul data).toF32, [])
  | .float64 data => (.float64 (factor.mul data), [])
  | v => (v, [.cannotMultiply factor v])

/-- The function `toFloat` (lines 145-162). -/
def toFloat (value : Value) : Flt × List LogLine :=
  match value with
  | .int data => (Flt.ofInt data, [])
  | .int32 data => (Flt.ofInt data, [])
  | .int64 data => (Flt.ofInt data, [])
  | .float32 data => (data, [])
  | .float64 data => (data, [])
  | v => (.fin false 0 0, [.cannotFloat v])

/-- The processor instance (lines 12-18). -/
structure Multiplier where
  Config : List String
  VerboseMode : Bool
  isInitialized : Bool
  array : Map (Map Flt)
  deriving DecidableEq, Repr

/-- The two package-level variables of lines 40-41; they belong to the
process, not to a processor instance. -/
structure Globals where
  totalMhz_average : Flt
  effectivecpu_average : Flt
  deriving DecidableEq, Repr

/-- The values of the package-level variables when the process starts. -/
def Globals.init : Globals := ⟨.fin false 0 0, .fin false 0 0⟩

/-- The instance made by `newMultiplier` and then filled from the options. -/
def newMultiplier (config : List String) (verbose : Bool) : Multiplier :=
  ⟨config, verbose, false, ⟨[]⟩⟩

/-- The inner loop of `Initialize` (lines 184-189): every field of the decoded
line is coerced and stored in `keeper`. -/
def storeFactors (keeper : Map Flt) (fields : List (String × Value)) : Map Flt × List LogLine :=
  fields.foldl
    (fun acc kv => let r := toFloat kv.2; (acc.1.set kv.1 r.1, acc.2 ++ r.2))
    (keeper, [])

/-- One iteration of the loop of `Initialize` (lines 170-190).  The map
`keeper` is shared with the table in the source; here the filled map is
written back under the record name. -/
def initLine (env : Env) (array : Map (Map Flt)) (str : String) :
    Map (Map Flt) × List LogLine :=
  match env.parseLine str with
  | .error err => (array, [.parseError err])
  | .ok metrics =>
    let keeper : Map Flt := (array.get metrics.name).getD Map.empty
    let r := storeFactors keeper metrics.fields.entries
    (array.set metrics.name r.1, r.2)

/-- The loop of `Initialize` over the configuration lines. -/
def initLines (env : Env) : List String → Map (Map Flt) → Map (Map Flt) × List LogLine
  | [], array => (array, [])
  | str :: rest, array =>
    let r := initLine env array str
    let t := initLines env rest r.1
    (t.1, r.2 ++ t.2)

/-- The method `Initialize` (lines 164-193): the instance with its table
rebuilt, the returned error and the lines printed. -/
def Initialize (env : Env) (multiplier : Multiplier) :
    Multiplier × Option String × List LogLine :=
  let r := initLines env multiplier.Config Map.empty
  ({ multiplier with array := r.1 }, none, r.2)

/-- Lines 53-58: the package-level variables after one record has been looked at. -/
def captureAccumulators (metrics : Metric) (g : Globals) : Globals × List LogLine :=
  let r1 : Globals × List LogLine :=
    match metrics.fields.get "totalmhz_average" with
    | some val => let r := toFloat val; ({ g with totalMhz_average := r.1 }, r.2)
    | none => (g, [])
  match metrics.fields.get "effectivecpu_average" with
  | some val => let r := toFloat val; ({ r1.1 with effectivecpu_average := r.1 }, r1.2 ++ r.2)
  | none => r1

/-- Lines 68-80: the new value of one field of a record whose name is in the table. -/
def rescaleField (env : Env) (multiplier : Multiplier) (name metricName : String)
    (metricValue : Value) : Value × List LogLine :=
  match ((multiplier.array.get name).getD Map.empty).get metricName with
  | some factor =>
    let r := Multiply env metricValue factor
    (r.1, r.2 ++
      (if multiplier.VerboseMode && !(metricValue.goEq r.1)
        then [LogLine.multiplied name metricName metricValue factor r.1] else []))
  | none => (metricValue, [])

/-- Lines 63-81: the map `newFields` of the rescale pass. -/
def rescaleFields (env : Env) (multiplier : Multiplier) (name : String)
    (fields : List (String × Value)) : Map Value × List LogLine :=
  fields.foldl
    (fun acc kv =>
      let r := rescaleField env multiplier name kv.1 kv.2
      (acc.1.set kv.1 r.1, acc.2 ++ r.2))
    (Map.empty, [])

/-- Lines 61-91: what the rescale pass leaves in the slot of one record. -/
def rescaleMetric (env : Env) (multiplier : Multiplier) (metrics : Metric) :
    Metric × List LogLine :=
  if multiplier.array.contains metrics.name then
    let r := rescaleFields env multiplier metrics.name metrics.fields.entries
    match metricNew env metrics.name metrics.tags r.1 metrics.time metrics.tp with
    | .error err => (metrics, r.2 ++ [LogLine.cannotCopy err])
    | .ok newMetric => (newMetric, r.2)
  else (metrics, [])

/-- The batch, the package-level variables and the printed lines after a pass. -/
structure Pass where
  out : List Metric
  globals : Globals
  stdout : List LogLine
  deriving DecidableEq, Repr

/-- The first loop of `Apply` (lines 51-92). -/
def rescaleLoop (env : Env) (multiplier : Multiplier) : List Metric → Globals → Pass
  | [], g => ⟨[], g, []⟩
  | metrics :: rest, g =>
    let c := captureAccumulators metrics g
    let r := rescaleMetric env multiplier metrics
    let t := rescaleLoop env multiplier rest c.1
    ⟨r.1 :: t.out, t.globals, c.2 ++ r.2 ++ t.stdout⟩

/-- Line 95: `int((effectivecpu_average * 100) / totalMhz_average)`. -/
def cpu_available (env : Env) (g : Globals) : Int :=
  env.toInt .int ((g.effectivecpu_average.mul (Flt.ofInt 100)).div g.totalMhz_average)

/-- Lines 98-108: the map `newFields` of the percentage pass. -/
def percentFields (cpu : Int) (fields : List (String × Value)) : Map Value :=
  fields.foldl
    (fun acc kv => acc.set kv.1 (if kv.1 = "effectivecpu_average" then Value.int cpu else kv.2))
    Map.empty

/-- Lines 97-113: what the percentage pass leaves in the slot of one record. -/
def percentMetric (env : Env) (cpu : Int) (metrics : Metric) : Metric :=
  if metrics.fields.contains "effectivecpu_average" then
    match metricNew env metrics.name metrics.tags (percentFields cpu metrics.fields.entries)
        metrics.time metrics.tp with
    | .error _ => metrics
    | .ok newMetric => newMetric
  else metrics

/-- Lines 44-48: the table is built on the first call only. -/
def ensureInitialized (env : Env) (multiplier : Multiplier) : Multiplier × List LogLine :=
  if multiplier.isInitialized then (multiplier, [])
  else
    let r := Initialize env multiplier
    ({ r.1 with isInitialized := true }, r.2.2)

/-- Lines 44-92 of `Apply`: initialisation and the rescale pass. -/
def rescalePass (env : Env) (multiplier : Multiplier) (g : Globals)
    (metricsArray : List Metric) : Pass :=
  rescaleLoop env (ensureInitialized env multiplier).1 metricsArray g

/-- What a call of `Apply` leaves behind: the returned batch, the instance,
the package-level variables and the lines printed. -/
structure ApplyResult where
  out : List Metric
  self : Multiplier
  globals : Globals
  stdout : List LogLine
  deriving DecidableEq, Repr

/-- The method `Apply` (lines 43-118). -/
def Apply (env : Env) (multiplier : Multiplier) (g : Globals) (metricsArray : List Metric) :
    ApplyResult :=
  let i := ensureInitialized env multiplier
  let p := rescaleLoop env i.1 metricsArray g
  if p.globals.totalMhz_average.isZero then
    ⟨p.out, i.1, p.globals, i.2 ++ p.stdout⟩
  else
    ⟨p.out.map (percentMetric env (cpu_available env p.globals)), i.1, p.globals,
      i.2 ++ p.stdout⟩

/-! ## A concrete environment -/

/-- The decoding the influx line parser gives for the configuration lines
used in the examples: the record name, then the fields, every number without
a suffix being a `float64`.  Any other line is rejected. -/
def exampleParseLine (str : String) : Except String Metric :=
  if str = "mem used_percent=100" then
    .ok ⟨"mem", ⟨[]⟩, ⟨[("used_percent", .float64 (Flt.ofInt 100))]⟩, 0, 0⟩
  else if str = "mem used_percent=100,available_percent=100" then
    .ok ⟨"mem", ⟨[]⟩,
      ⟨[("used_percent", .float64 (Flt.ofInt 100)),
        ("available_percent", .float64 (Flt.ofInt 100))]⟩, 0, 0⟩
  else if str = "swap used_percent=100" then
    .ok ⟨"swap", ⟨[]⟩, ⟨[("used_percent", .float64 (Flt.ofInt 100))]⟩, 0, 0⟩
  else if str = "cpu effectivecpu_average=2" then
    .ok ⟨"cpu", ⟨[]⟩, ⟨[("effectivecpu_average", .float64 (Flt.ofInt 2))]⟩, 0, 0⟩
  else .error "invalid line"

/-- A 64-bit platform whose out-of-range conversions give the least `int64`
(as `CVTTSD2SQ` does), with a record constructor that accepts everything. -/
def exampleEnv : Env where
  intBits := 64
  convOOR := fun _ _ => -9223372036854775808
  parseLine := exampleParseLine
  newError := fun _ _ _ _ _ => none

/-! ## Auxiliary definitions and example inputs -/

/-- The loop `for k, v := range l { acc[k] = f k v }` that builds a map from
the bindings `l`, starting from `acc`. -/
def Map.setAll {α β : Type} (f : String → α → β) (l : List (String × α)) (acc : Map β) : Map β :=
  l.foldl (fun acc kv => acc.set kv.1 (f kv.1 kv.2)) acc

/-- The percentage pass on one slot, with its gate on the capacity variable. -/
def percentStep (env : Env) (g : Globals) (r : Metric) : Metric :=
  if g.totalMhz_average.isZero then r else percentMetric env (cpu_available env g) r

/-- The record `mem{used_percent=50}`. -/
def memRecord : Metric :=
  ⟨"mem", ⟨[("host", "h1")]⟩, ⟨[("used_percent", .int64 50)]⟩, 1700000000, 1⟩

/-- The record `a{totalmhz_average=2000}`. -/
def capacityRecord : Metric := ⟨"a", ⟨[]⟩, ⟨[("totalmhz_average", .int64 2000)]⟩, 0, 0⟩

/-- The record `b{effectivecpu_average=500}`. -/
def usageRecord : Metric := ⟨"b", ⟨[]⟩, ⟨[("effectivecpu_average", .int64 500)]⟩, 0, 0⟩

/-- The record `b{effectivecpu_average=25}`, the percentage being a Go `int`. -/
def usagePercentRecord : Metric := ⟨"b", ⟨[]⟩, ⟨[("effectivecpu_average", .int 25)]⟩, 0, 0⟩

/-- The record `cpu{totalmhz_average=2000, effectivecpu_average="x"}`. -/
def stringUsageRecord : Metric :=
  ⟨"cpu", ⟨[]⟩,
    ⟨[("totalmhz_average", .int64 2000), ("effectivecpu_average", .string "x")]⟩, 0, 0⟩

/-- The record `mem{used_percent="high"}`. -/
def stringMemRecord : Metric :=
  ⟨"mem", ⟨[]⟩, ⟨[("used_percent", .string "high")]⟩, 0, 0⟩

/-- The value of the integer type `k` that holds `n`. -/
def Value.ofKind (k : IntKind) (n : Int) : Value :=
  match k with
  | .int => .int n
  | .uint => .uint n.toNat
  | .int32 => .int32 n
  | .uint32 => .uint32 n.toNat
  | .int64 => .int64 n
  | .uint64 => .uint64 n.toNat

/-- The record `cpu{totalmhz_average=8, effectivecpu_average=-1}`. -/
def negativeUsageRecord : Metric :=
  ⟨"cpu", ⟨[]⟩, ⟨[("totalmhz_average", .int64 8), ("effectivecpu_average", .int64 (-1))]⟩, 0, 0⟩

/-- The factor one half. -/
def half : Flt := .fin false 1 (-1)

/-- The lookup `table[n][f]` in the two-level factor table. -/
def factorOf (array : Map (Map Flt)) (n f : String) : Option Flt :=
  ((array.get n).getD Map.empty).get f

/-- Whether the line parser decodes the configuration line. -/
def decodes (env : Env) (str : String) : Bool :=
  match env.parseLine str with
  | .ok _ => true
  | .error _ => false

/-- The records decoded from the configuration lines, in list order; a line
that fails to decode contributes nothing. -/
def decodedLines (env : Env) : List String → List Metric
  | [] => []
  | str :: rest =>
    match env.parseLine str with
    | .ok metrics => metrics :: decodedLines env rest
    | .error _ => decodedLines env rest

/-- The value of the field `f` in the last record of the list that has the
name `n` and a field `f`. -/
def lastValue : List Metric → String → String → Option Value
  | [], _, _ => none
  | r :: rest, n, f =>
    match lastValue rest n f with
    | some v => some v
    | none => if r.name = n then r.fields.get f else none

/-- The value of the field `field` in the last record of the batch that
carries it. -/
def lastReading (field : String) : List Metric → Option Value
  | [] => none
  | r :: rest =>
    match lastReading field rest with
    | some v => some v
    | none => r.fields.get field

/-- The accumulator after a batch: `toFloat` of the last reading of `field`
in the batch, or the value `prior` it had before when no record carries the
field. -/
def reading (field : String) (batch : List Metric) (prior : Flt) : Flt :=
  match lastReading field batch with
  | some v => (toFloat v).1
  | none => prior

/-- A second processor instance, with its own options. -/
def otherMultiplier : Multiplier := newMultiplier ["mem used_percent=100"] false

/-- An instance whose table is `{cpu: {totalmhz_average: 2, effectivecpu_average: 3}}`. -/
def cpuFactorsMultiplier : Multiplier :=
  ⟨[], false, true,
    ⟨[("cpu", ⟨[("totalmhz_average", Flt.ofInt 2), ("effectivecpu_average", Flt.ofInt 3)]⟩)]⟩⟩

/-- The record `cpu{totalmhz_average=2000, effectivecpu_average=500}`. -/
def cpuRecord : Metric :=
  ⟨"cpu", ⟨[]⟩,
    ⟨[("totalmhz_average", .int64 2000), ("effectivecpu_average", .int64 500)]⟩, 0, 0⟩

/-- The environment `env` with another verdict of the record constructor. -/
def Env.withNewError (env : Env)
    (newError : String → Map String → Map Value → Int → Nat → Option String) : Env :=
  { env with newError := newError }

/-- An environment whose record constructor rejects every record named `mem`. -/
def rejectingEnv : Env :=
  exampleEnv.withNewError (fun name _ _ _ _ => if name = "mem" then some "rejected" else none)

/-- The record `mem{totalmhz_average=2000, effectivecpu_average=500, used_percent=50}`. -/
def memCpuRecord : Metric :=
  ⟨"mem", ⟨[]⟩,
    ⟨[("totalmhz_average", .int64 2000), ("effectivecpu_average", .int64 500),
      ("used_percent", .int64 50)]⟩, 0, 0⟩

/-- Whether the value has one of the five types of the switch in `toFloat`. -/
def Value.isFloatable : Value → Bool
  | .int _ => true
  | .int32 _ => true
  | .int64 _ => true
  | .float32 _ => true
  | .float64 _ => true
  | _ => false

/-- Whether the value is a finite number (neither NaN nor an infinity). -/
def Flt.isFinite : Flt → Bool
  | .fin _ _ _ => true
  | _ => false

/-- The zero that has the sign of a finite value. -/
def Flt.zeroLike : Flt → Flt
  | .fin s _ _ => .fin s 0 0
  | x => x

/-- Whether the value has one of the eight numeric types of `Multiply` and is
finite once converted to `float64`. -/
def Value.isFiniteNumber : Value → Bool
  | .int data => (Flt.ofInt data).isFinite
  | .uint data => (Flt.ofInt data).isFinite
  | .int32 data => (Flt.ofInt data).isFinite
  | .uint32 data => (Flt.ofInt data).isFinite
  | .int64 data => (Flt.ofInt data).isFinite
  | .uint64 data => (Flt.ofInt data).isFinite
  | .float32 data => data.isFinite
  | .float64 data => data.isFinite
  | _ => false

/-- The zero of the type of a numeric value; a floating point zero takes the
sign of the value. -/
def Value.zeroLike : Value → Value
  | .int _ => .int 0
  | .uint _ => .uint 0
  | .int32 _ => .int32 0
  | .uint32 _ => .uint32 0
  | .int64 _ => .int64 0
  | .uint64 _ => .uint64 0
  | .float32 data => .float32 data.zeroLike
  | .float64 data => .float64 data.zeroLike
  | v => v

/-- The example parser extended with a line whose field value is a boolean. -/
def boolParseLine (str : String) : Except String Metric :=
  if str = "mem used_percent=true" then
    .ok ⟨"mem", ⟨[]⟩, ⟨[("used_percent", .bool true)]⟩, 0, 0⟩
  else exampleParseLine str

/-- The example environment with the extended parser. -/
def boolEnv : Env := { exampleEnv with parseLine := boolParseLine }

/-- The record `mem{used_percent=+Inf}`. -/
def infiniteMemRecord : Metric :=
  ⟨"mem", ⟨[]⟩, ⟨[("used_percent", .float64 (.inf false))]⟩, 0, 0⟩

/-! ## Maps: lookup after a rebuilding loop -/

namespace Map

variable {α β : Type}

theorem lookupKey_insertKey_self (k : String) (v : α) (l : List (String × α)) :
    lookupKey k (insertKey k v l) = some v := by
  induction l with
  | nil => simp [insertKey, lookupKey]
  | cons hd tl ih =>
    obtain ⟨k0, v0⟩ := hd
    by_cases h : k0 = k
    · simp [insertKey, lookupKey, h]
    · simp [insertKey, lookupKey, h, ih]

theorem lookupKey_insertKey_ne {k k1 : String} (h : k1 ≠ k) (v : α) (l : List (String × α)) :
    lookupKey k1 (insertKey k v l) = lookupKey k1 l := by
  induction l with
  | nil => simp [insertKey, lookupKey, Ne.symm h]
  | cons hd tl ih =>
    obtain ⟨k0, v0⟩ := hd
    by_cases h0 : k0 = k
    · subst h0
      simp [insertKey, lookupKey, Ne.symm h]
    · by_cases h1 : k0 = k1
      · subst h1
        simp [insertKey, lookupKey, h0]
      · simp [insertKey, lookupKey, h0, h1, ih]

theorem get_set_self (m : Map α) (k : String) (v : α) : (m.set k v).get k = some v :=
  lookupKey_insertKey_self k v m.items

theorem get_set_ne (m : Map α) {k k1 : String} (h : k1 ≠ k) (v : α) :
    (m.set k v).get k1 = m.get k1 :=
  lookupKey_insertKey_ne h v m.items

theorem get_empty (k : String) : (Map.empty : Map α).get k = none := rfl

theorem lookupKey_entriesAux (k : String) (seen : List String) (l : List (String × α)) :
    lookupKey k (entriesAux seen l) = if k ∈ seen then none else lookupKey k l := by
  induction l generalizing seen with
  | nil => simp [entriesAux, lookupKey]
  | cons hd tl ih =>
    obtain ⟨k0, v0⟩ := hd
    by_cases hs : k0 ∈ seen
    · by_cases hk : k0 = k
      · subst hk
        simp [entriesAux, hs, ih]
      · simp [entriesAux, hs, ih, lookupKey, hk]
    · by_cases hk : k0 = k
      · subst hk
        simp [entriesAux, hs, lookupKey]
      · have hk1 : ¬ k = k0 := fun h => hk h.symm
        simp [entriesAux, hs, lookupKey, hk, ih, List.mem_cons, hk1]

theorem lookupKey_entries (m : Map α) (k : String) : lookupKey k m.entries = m.get k := by
  simp [entries, get, lookupKey_entriesAux]

theorem get_setAll_entriesAux (f : String → α → β) (k : String) (l : List (String × α)) :
    ∀ (seen : List String) (acc : Map β),
      (setAll f (entriesAux seen l) acc).get k =
        match lookupKey k (entriesAux seen l) with
        | some v => some (f k v)
        | none => acc.get k := by
  induction l with
  | nil => intro seen acc; simp [entriesAux, setAll, lookupKey]
  | cons hd tl ih =>
    intro seen acc
    obtain ⟨k0, v0⟩ := hd
    by_cases hs : k0 ∈ seen
    · simpa [entriesAux, hs] using ih seen acc
    · have hstep : setAll f (entriesAux seen ((k0, v0) :: tl)) acc =
          setAll f (entriesAux (k0 :: seen) tl) (acc.set k0 (f k0 v0)) := by
        simp [entriesAux, hs, setAll]
      rw [hstep, ih (k0 :: seen) (acc.set k0 (f k0 v0))]
      by_cases hk : k0 = k
      · subst hk
        simp [entriesAux, hs, lookupKey, lookupKey_entriesAux, get_set_self]
      · have hk1 : k ≠ k0 := fun h => hk h.symm
        simp [entriesAux, hs, lookupKey, hk, get_set_ne _ hk1]

/-- Looking a key up after the rebuilding loop over all bindings of `m`. -/
theorem get_setAll_entries (f : String → α → β) (m : Map α) (k : String) :
    (setAll f m.entries Map.empty).get k = (m.get k).map (f k) := by
  have h := get_setAll_entriesAux f k m.items [] Map.empty
  rw [entries, h]
  have h2 := lookupKey_entriesAux k [] m.items
  simp only [List.not_mem_nil, if_false] at h2
  rw [h2]
  cases hg : lookupKey k m.items <;> simp [get, hg, Map.empty, lookupKey]

theorem contains_setAll_entries (f : String → α → β) (m : Map α) (k : String) :
    (setAll f m.entries Map.empty).contains k = m.contains k := by
  simp [contains, get_setAll_entries]

/-- The map component of a rebuilding loop that also collects printed lines. -/
theorem foldl_logged_fst {γ : Type} (g : String × α → β × List γ) (l : List (String × α)) :
    ∀ (acc : Map β) (lg : List γ),
      (l.foldl (fun (a : Map β × List γ) kv => (a.1.set kv.1 (g kv).1, a.2 ++ (g kv).2))
        (acc, lg)).1 = setAll (fun k v => (g (k, v)).1) l acc := by
  induction l with
  | nil => intro acc lg; rfl
  | cons hd tl ih =>
    intro acc lg
    simp only [List.foldl_cons, setAll]
    rw [ih]
    rfl

end Map

/-! ## The two passes, record by record -/

theorem rescaleFields_fst (env : Env) (multiplier : Multiplier) (name : String)
    (l : List (String × Value)) :
    (rescaleFields env multiplier name l).1 =
      Map.setAll (fun k v => (rescaleField env multiplier name k v).1) l Map.empty :=
  Map.foldl_logged_fst (fun kv => rescaleField env multiplier name kv.1 kv.2) l Map.empty []

theorem percentFields_eq (cpu : Int) (l : List (String × Value)) :
    percentFields cpu l =
      Map.setAll (fun k v => if k = "effectivecpu_average" then Value.int cpu else v) l
        Map.empty := rfl

theorem rescaleMetric_of_absent (env : Env) (multiplier : Multiplier) (r : Metric)
    (h : multiplier.array.contains r.name = false) : (rescaleMetric env multiplier r).1 = r := by
  simp [rescaleMetric, h]

theorem rescaleMetric_of_ok (env : Env) (multiplier : Multiplier) (r : Metric)
    (h : multiplier.array.contains r.name = true)
    (hnew : env.newError r.name r.tags
      (rescaleFields env multiplier r.name r.fields.entries).1 r.time r.tp = none) :
    (rescaleMetric env multiplier r).1 =
      ⟨r.name, r.tags, (rescaleFields env multiplier r.name r.fields.entries).1, r.time, r.tp⟩ := by
  simp [rescaleMetric, h, metricNew, hnew]

/-- The rescale pass leaves either the record itself or the rebuilt record. -/
theorem rescaleMetric_cases (env : Env) (multiplier : Multiplier) (r : Metric) :
    (rescaleMetric env multiplier r).1 = r ∨
    (rescaleMetric env multiplier r).1 =
      ⟨r.name, r.tags, (rescaleFields env multiplier r.name r.fields.entries).1, r.time, r.tp⟩ := by
  unfold rescaleMetric metricNew
  by_cases h : multiplier.array.contains r.name = true
  · cases hn : env.newError r.name r.tags
        (rescaleFields env multiplier r.name r.fields.entries).1 r.time r.tp with
    | none => right; simp [h, hn]
    | some err => left; simp [h, hn]
  · left; simp [h]

theorem rescaleMetric_contains (env : Env) (multiplier : Multiplier) (r : Metric) (k : String) :
    (rescaleMetric env multiplier r).1.fields.contains k = r.fields.contains k := by
  rcases rescaleMetric_cases env multiplier r with h | h
  · rw [h]
  · rw [h, rescaleFields_fst]
    exact Map.contains_setAll_entries _ _ _

theorem rescaleMetric_shape (env : Env) (multiplier : Multiplier) (r : Metric) :
    (rescaleMetric env multiplier r).1.name = r.name ∧
    (rescaleMetric env multiplier r).1.tags = r.tags ∧
    (rescaleMetric env multiplier r).1.time = r.time ∧
    (rescaleMetric env multiplier r).1.tp = r.tp := by
  rcases rescaleMetric_cases env multiplier r with h | h <;> rw [h] <;> simp

theorem percentMetric_of_absent (env : Env) (cpu : Int) (r : Metric)
    (h : r.fields.contains "effectivecpu_average" = false) : percentMetric env cpu r = r := by
  simp [percentMetric, h]

theorem percentMetric_of_ok (env : Env) (cpu : Int) (r : Metric)
    (h : r.fields.contains "effectivecpu_average" = true)
    (hnew : env.newError r.name r.tags (percentFields cpu r.fields.entries) r.time r.tp = none) :
    percentMetric env cpu r =
      ⟨r.name, r.tags, percentFields cpu r.fields.entries, r.time, r.tp⟩ := by
  simp [percentMetric, h, metricNew, hnew]

/-- The percentage pass leaves either the record itself or the rebuilt record. -/
theorem percentMetric_cases (env : Env) (cpu : Int) (r : Metric) :
    percentMetric env cpu r = r ∨
    percentMetric env cpu r =
      ⟨r.name, r.tags, percentFields cpu r.fields.entries, r.time, r.tp⟩ := by
  unfold percentMetric metricNew
  by_cases h : r.fields.contains "effectivecpu_average" = true
  · cases hn : env.newError r.name r.tags (percentFields cpu r.fields.entries) r.time r.tp with
    | none => right; simp [h, hn]
    | some err => left; simp [h, hn]
  · left; simp [h]

theorem percentMetric_shape (env : Env) (cpu : Int) (r : Metric) :
    (percentMetric env cpu r).name = r.name ∧
    (percentMetric env cpu r).tags = r.tags ∧
    (percentMetric env cpu r).time = r.time ∧
    (percentMetric env cpu r).tp = r.tp := by
  rcases percentMetric_cases env cpu r with h | h <;> rw [h] <;> simp

theorem percentStep_shape (env : Env) (g : Globals) (r : Metric) :
    (percentStep env g r).name = r.name ∧
    (percentStep env g r).tags = r.tags ∧
    (percentStep env g r).time = r.time ∧
    (percentStep env g r).tp = r.tp := by
  unfold percentStep
  split
  · simp
  · exact percentMetric_shape env _ r

theorem rescaleLoop_out (env : Env) (multiplier : Multiplier) (l : List Metric) :
    ∀ g : Globals,
      (rescaleLoop env multiplier l g).out = l.map (fun r => (rescaleMetric env multiplier r).1) := by
  induction l with
  | nil => intro g; rfl
  | cons hd tl ih => intro g; simp [rescaleLoop, ih]

theorem Apply_self (env : Env) (multiplier : Multiplier) (g : Globals) (l : List Metric) :
    (Apply env multiplier g l).self = (ensureInitialized env multiplier).1 := by
  unfold Apply
  simp only []
  split <;> rfl

theorem Apply_globals (env : Env) (multiplier : Multiplier) (g : Globals) (l : List Metric) :
    (Apply env multiplier g l).globals = (rescalePass env multiplier g l).globals := by
  unfold Apply rescalePass
  simp only []
  split <;> rfl

theorem rescalePass_out (env : Env) (multiplier : Multiplier) (g : Globals) (l : List Metric) :
    (rescalePass env multiplier g l).out =
      l.map (fun r => (rescaleMetric env (Apply env multiplier g l).self r).1) := by
  rw [Apply_self]
  exact rescaleLoop_out env _ l g

/-- Every slot of the returned batch is the input record taken through the
rescale pass and then through the gated percentage pass. -/
theorem Apply_out (env : Env) (multiplier : Multiplier) (g : Globals) (l : List Metric) :
    (Apply env multiplier g l).out =
      l.map (fun r => percentStep env (Apply env multiplier g l).globals
        (rescaleMetric env (Apply env multiplier g l).self r).1) := by
  rw [Apply_self, Apply_globals]
  unfold Apply rescalePass percentStep
  simp only []
  split
  · rename_i h
    simp [rescaleLoop_out, h]
  · rename_i h
    simp [rescaleLoop_out, h, List.map_map, Function.comp]

theorem rescaleField_fst (env : Env) (multiplier : Multiplier) (name f : String) (v : Value) :
    (rescaleField env multiplier name f v).1 =
      match ((multiplier.array.get name).getD Map.empty).get f with
      | some factor => (Multiply env v factor).1
      | none => v := by
  unfold rescaleField
  cases ((multiplier.array.get name).getD Map.empty).get f <;> rfl

theorem Apply_out_getElem? (env : Env) (multiplier : Multiplier) (g : Globals) (l : List Metric)
    (i : Nat) :
    (Apply env multiplier g l).out[i]? =
      (l[i]?).map (fun r => percentStep env (Apply env multiplier g l).globals
        (rescaleMetric env (Apply env multiplier g l).self r).1) := by
  conv_lhs => rw [Apply_out]
  exact List.getElem?_map _ _ _

/-! ## The rescale pass -/

/-- C1: for every table, batch and index `i` whose input record has a name that
is a key of the table, provided the construction of the rescaled record
succeeds and the record carries no `effectivecpu_average` field, the output
record at `i` has the same name, tags, timestamp and kind and the same field
names, and every field `f` with input value `v` has the value
`Multiply(v, table[name][f])` when `f` is a key of `table[name]` and `v`
otherwise. -/
theorem Apply_rescales_matching_record (env : Env) (multiplier : Multiplier) (g : Globals)
    (metricsArray : List Metric) (i : Nat) (r : Metric)
    (hi : metricsArray[i]? = some r)
    (hname : (Apply env multiplier g metricsArray).self.array.contains r.name = true)
    (hnew : env.newError r.name r.tags
      (rescaleFields env (Apply env multiplier g metricsArray).self r.name r.fields.entries).1
      r.time r.tp = none)
    (heff : r.fields.contains "effectivecpu_average" = false) :
    ∃ out : Metric, (Apply env multiplier g metricsArray).out[i]? = some out ∧
      out.name = r.name ∧ out.tags = r.tags ∧ out.time = r.time ∧ out.tp = r.tp ∧
      (∀ f : String, out.fields.contains f = r.fields.contains f) ∧
      ∀ (f : String) (v : Value), r.fields.get f = some v →
        out.fields.get f = some
          (match (((Apply env multiplier g metricsArray).self.array.get r.name).getD
              Map.empty).get f with
            | some factor => (Multiply env v factor).1
            | none => v) := by
  have hres := rescaleMetric_of_ok env _ r hname hnew
  have hkeep : percentStep env (Apply env multiplier g metricsArray).globals
      (rescaleMetric env (Apply env multiplier g metricsArray).self r).1 =
      (rescaleMetric env (Apply env multiplier g metricsArray).self r).1 := by
    unfold percentStep
    split
    · rfl
    · apply percentMetric_of_absent
      rw [rescaleMetric_contains]
      exact heff
  refine ⟨(rescaleMetric env (Apply env multiplier g metricsArray).self r).1, ?_, ?_⟩
  · rw [Apply_out_getElem?, hi, Option.map_some', hkeep]
  · rw [hres]
    refine ⟨rfl, rfl, rfl, rfl, ?_, ?_⟩
    · intro f
      rw [rescaleFields_fst]
      exact Map.contains_setAll_entries _ _ _
    · intro f v hv
      show (rescaleFields env _ r.name r.fields.entries).1.get f = _
      rw [rescaleFields_fst, Map.get_setAll_entries, hv, Option.map_some', rescaleField_fst]

theorem Apply_rescales_matching_record_witness :
    [memRecord][0]? = some memRecord ∧
    (Apply exampleEnv (newMultiplier ["mem used_percent=100"] false) Globals.init
      [memRecord]).self.array.contains memRecord.name = true ∧
    memRecord.fields.contains "effectivecpu_average" = false ∧
    (Apply exampleEnv (newMultiplier ["mem used_percent=100"] false) Globals.init
      [memRecord]).out = [{ memRecord with fields := ⟨[("used_percent", .int64 5000)]⟩ }] ∧
    ∃ out : Metric,
      (Apply exampleEnv (newMultiplier ["mem used_percent=100"] false) Globals.init
        [memRecord]).out[0]? = some out ∧
      out.name = memRecord.name ∧ out.tags = memRecord.tags ∧ out.time = memRecord.time ∧
      out.tp = memRecord.tp ∧
      (∀ f : String, out.fields.contains f = memRecord.fields.contains f) ∧
      ∀ (f : String) (v : Value), memRecord.fields.get f = some v →
        out.fields.get f = some
          (match (((Apply exampleEnv (newMultiplier ["mem used_percent=100"] false) Globals.init
              [memRecord]).self.array.get memRecord.name).getD Map.empty).get f with
            | some factor => (Multiply exampleEnv v factor).1
            | none => v) :=
  ⟨by decide, by decide, by decide, by decide,
    Apply_rescales_matching_record exampleEnv (newMultiplier ["mem used_percent=100"] false)
      Globals.init [memRecord] 0 memRecord (by decide) (by decide) (by decide) (by decide)⟩

/-- The claim C2 as written fails: with an empty table, the record
`b{effectivecpu_average=500}` that follows `a{totalmhz_average=2000}` has a
name that is no key of the table, and it is not returned as it came in. -/
theorem identity_for_unmatched_names_fails :
    ¬ (∀ (i : Nat) (r : Metric), [capacityRecord, usageRecord][i]? = some r →
        (Apply exampleEnv (newMultiplier [] false) Globals.init
          [capacityRecord, usageRecord]).self.array.contains r.name = false →
        (Apply exampleEnv (newMultiplier [] false) Globals.init
          [capacityRecord, usageRecord]).out[i]? = some r) := by
  intro h
  have h1 := h 1 usageRecord (by decide) (by decide)
  revert h1
  decide

/-- C2 (amended): a record whose name is not a key of the factor table, and
which carries no `effectivecpu_average` field or is in a batch after whose scan
the capacity variable is zero, is returned at the same index exactly as it
came in. -/
theorem Apply_identity_for_unmatched_names (env : Env) (multiplier : Multiplier) (g : Globals)
    (metricsArray : List Metric) (i : Nat) (r : Metric)
    (hi : metricsArray[i]? = some r)
    (hname : (Apply env multiplier g metricsArray).self.array.contains r.name = false)
    (hgate : r.fields.contains "effectivecpu_average" = false ∨
      (Apply env multiplier g metricsArray).globals.totalMhz_average.isZero = true) :
    (Apply env multiplier g metricsArray).out[i]? = some r := by
  rw [Apply_out_getElem?, hi, Option.map_some', rescaleMetric_of_absent env _ r hname]
  congr 1
  unfold percentStep
  rcases hgate with h | h
  · split
    · rfl
    · exact percentMetric_of_absent env _ r h
  · simp [h]

theorem Apply_identity_for_unmatched_names_witness :
    [capacityRecord, usageRecord][0]? = some capacityRecord ∧
    (Apply exampleEnv (newMultiplier ["mem used_percent=100"] false) Globals.init
      [capacityRecord, usageRecord]).self.array.contains capacityRecord.name = false ∧
    capacityRecord.fields.contains "effectivecpu_average" = false ∧
    (Apply exampleEnv (newMultiplier ["mem used_percent=100"] false) Globals.init
      [capacityRecord, usageRecord]).out[0]? = some capacityRecord :=
  ⟨by decide, by decide, by decide,
    Apply_identity_for_unmatched_names exampleEnv (newMultiplier ["mem used_percent=100"] false)
      Globals.init [capacityRecord, usageRecord] 0 capacityRecord (by decide) (by decide)
      (Or.inl (by decide))⟩

/-- C3: the output of `Apply` has the length of the input, and at every index
the output record has the name, tags, timestamp and kind of the input record,
whatever the record constructor accepts or rejects. -/
theorem Apply_preserves_length_and_order (env : Env) (multiplier : Multiplier) (g : Globals)
    (metricsArray : List Metric) :
    (Apply env multiplier g metricsArray).out.length = metricsArray.length ∧
    ∀ i : Nat,
      ((Apply env multiplier g metricsArray).out[i]?).map Metric.name =
        (metricsArray[i]?).map Metric.name ∧
      ((Apply env multiplier g metricsArray).out[i]?).map Metric.tags =
        (metricsArray[i]?).map Metric.tags ∧
      ((Apply env multiplier g metricsArray).out[i]?).map Metric.time =
        (metricsArray[i]?).map Metric.time ∧
      ((Apply env multiplier g metricsArray).out[i]?).map Metric.tp =
        (metricsArray[i]?).map Metric.tp := by
  constructor
  · conv_lhs => rw [Apply_out]
    exact List.length_map _ _
  · intro i
    rw [Apply_out_getElem?]
    cases metricsArray[i]? with
    | none => simp
    | some r =>
      have h1 := percentStep_shape env (Apply env multiplier g metricsArray).globals
        (rescaleMetric env (Apply env multiplier g metricsArray).self r).1
      have h2 := rescaleMetric_shape env (Apply env multiplier g metricsArray).self r
      simp only [Option.map_some']
      exact ⟨by rw [h1.1, h2.1], by rw [h1.2.1, h2.2.1], by rw [h1.2.2.1, h2.2.2.1],
        by rw [h1.2.2.2, h2.2.2.2]⟩

/-! ## The percentage pass -/

/-- C4: when the capacity variable is non-zero after the scan of the batch,
every record that carries an `effectivecpu_average` field after the rescale
pass, wherever it sits and whatever its name, has that field equal to the one
integer `int(usage * 100 / capacity)` in the output, provided the construction
of the rewritten record succeeds. -/
theorem Apply_rewrites_percentage (env : Env) (multiplier : Multiplier) (g : Globals)
    (metricsArray : List Metric) (i : Nat) (p : Metric)
    (hcap : (Apply env multiplier g metricsArray).globals.totalMhz_average.isZero = false)
    (hi : (rescalePass env multiplier g metricsArray).out[i]? = some p)
    (hcarry : p.fields.contains "effectivecpu_average" = true)
    (hnew : env.newError p.name p.tags
      (percentFields (cpu_available env (Apply env multiplier g metricsArray).globals)
        p.fields.entries) p.time p.tp = none) :
    ∃ out : Metric, (Apply env multiplier g metricsArray).out[i]? = some out ∧
      out.name = p.name ∧
      out.fields.get "effectivecpu_average" = some (Value.int (env.toInt .int
        (((Apply env multiplier g metricsArray).globals.effectivecpu_average.mul
          (Flt.ofInt 100)).div (Apply env multiplier g metricsArray).globals.totalMhz_average))) := by
  rw [rescalePass_out, List.getElem?_map] at hi
  rw [Apply_out_getElem?]
  cases hr : metricsArray[i]? with
  | none => rw [hr] at hi; simp at hi
  | some r =>
    rw [hr, Option.map_some'] at hi
    have hp : (rescaleMetric env (Apply env multiplier g metricsArray).self r).1 = p :=
      Option.some.inj hi
    rw [Option.map_some', hp]
    have hstep : percentStep env (Apply env multiplier g metricsArray).globals p =
        ⟨p.name, p.tags,
          percentFields (cpu_available env (Apply env multiplier g metricsArray).globals)
            p.fields.entries, p.time, p.tp⟩ := by
      unfold percentStep
      rw [hcap]
      exact percentMetric_of_ok env _ p hcarry hnew
    refine ⟨_, rfl, ?_, ?_⟩
    · rw [hstep]
    · rw [hstep]
      show (percentFields _ p.fields.entries).get "effectivecpu_average" = _
      have hsome : ∃ v, p.fields.get "effectivecpu_average" = some v := by
        cases hv : p.fields.get "effectivecpu_average" with
        | none => simp [Map.contains, hv] at hcarry
        | some v => exact ⟨v, rfl⟩
      obtain ⟨v, hv⟩ := hsome
      rw [percentFields_eq, Map.get_setAll_entries, hv]
      simp [cpu_available]

theorem Apply_rewrites_percentage_witness :
    (Apply exampleEnv (newMultiplier [] false) Globals.init
      [capacityRecord, usageRecord]).globals.totalMhz_average.isZero = false ∧
    (rescalePass exampleEnv (newMultiplier [] false) Globals.init
      [capacityRecord, usageRecord]).out[1]? = some usageRecord ∧
    usageRecord.fields.contains "effectivecpu_average" = true ∧
    (Apply exampleEnv (newMultiplier [] false) Globals.init [capacityRecord, usageRecord]).out =
      [capacityRecord, usagePercentRecord] ∧
    ∃ out : Metric,
      (Apply exampleEnv (newMultiplier [] false) Globals.init
        [capacityRecord, usageRecord]).out[1]? = some out ∧
      out.name = usageRecord.name ∧
      out.fields.get "effectivecpu_average" = some (Value.int (exampleEnv.toInt .int
        (((Apply exampleEnv (newMultiplier [] false) Globals.init
            [capacityRecord, usageRecord]).globals.effectivecpu_average.mul (Flt.ofInt 100)).div
          (Apply exampleEnv (newMultiplier [] false) Globals.init
            [capacityRecord, usageRecord]).globals.totalMhz_average))) :=
  ⟨by decide, by decide, by decide, by decide,
    Apply_rewrites_percentage exampleEnv (newMultiplier [] false) Globals.init
      [capacityRecord, usageRecord] 1 usageRecord (by decide) (by decide) (by decide)
      (by decide)⟩

/-- C5: if the capacity variable is zero once the batch has been scanned,
`Apply` rewrites no percentage: the output is what the rescale pass produced,
and a record whose name is not in the factor table is returned as it came in,
its `effectivecpu_average` field included. -/
theorem Apply_zero_capacity_gate (env : Env) (multiplier : Multiplier) (g : Globals)
    (metricsArray : List Metric)
    (hzero : (Apply env multiplier g metricsArray).globals.totalMhz_average.isZero = true) :
    (Apply env multiplier g metricsArray).out = (rescalePass env multiplier g metricsArray).out ∧
    ∀ (i : Nat) (r : Metric), metricsArray[i]? = some r →
      (Apply env multiplier g metricsArray).self.array.contains r.name = false →
      (Apply env multiplier g metricsArray).out[i]? = some r ∧
      (Apply env multiplier g metricsArray).out[i]?.map
          (fun o => o.fields.get "effectivecpu_average") =
        some (r.fields.get "effectivecpu_average") := by
  have hout : (Apply env multiplier g metricsArray).out =
      (rescalePass env multiplier g metricsArray).out := by
    rw [rescalePass_out]
    conv_lhs => rw [Apply_out]
    apply List.map_congr_left
    intro r _
    simp [percentStep, hzero]
  refine ⟨hout, ?_⟩
  intro i r hi hname
  have h : (Apply env multiplier g metricsArray).out[i]? = some r := by
    rw [Apply_out_getElem?, hi, Option.map_some', rescaleMetric_of_absent env _ r hname]
    simp [percentStep, hzero]
  exact ⟨h, by rw [h]; rfl⟩

theorem Apply_zero_capacity_gate_witness :
    (Apply exampleEnv (newMultiplier [] false) Globals.init
      [usageRecord]).globals.totalMhz_average.isZero = true ∧
    (Apply exampleEnv (newMultiplier [] false) Globals.init [usageRecord]).out = [usageRecord] ∧
    ((Apply exampleEnv (newMultiplier [] false) Globals.init [usageRecord]).out =
      (rescalePass exampleEnv (newMultiplier [] false) Globals.init [usageRecord]).out ∧
    ∀ (i : Nat) (r : Metric), [usageRecord][i]? = some r →
      (Apply exampleEnv (newMultiplier [] false) Globals.init
        [usageRecord]).self.array.contains r.name = false →
      (Apply exampleEnv (newMultiplier [] false) Globals.init [usageRecord]).out[i]? = some r ∧
      (Apply exampleEnv (newMultiplier [] false) Globals.init [usageRecord]).out[i]?.map
          (fun o => o.fields.get "effectivecpu_average") =
        some (r.fields.get "effectivecpu_average")) :=
  ⟨by decide, by decide,
    Apply_zero_capacity_gate exampleEnv (newMultiplier [] false) Globals.init [usageRecord]
      (by decide)⟩

/-! ## Multiply: types and unsupported values -/

/-- C7: `Multiply` returns a value of the dynamic type of its argument, for
each of the eight numeric types and for every other type. -/
theorem Multiply_preserves_type (env : Env) (value : Value) (factor : Flt) :
    (Multiply env value factor).1.typeOf = value.typeOf := by
  cases value <;> rfl

theorem Multiply_unsupported (env : Env) (value : Value) (factor : Flt)
    (h : value.isSupported = false) :
    Multiply env value factor = (value, [LogLine.cannotMultiply factor value]) := by
  cases value <;> first | rfl | simp [Value.isSupported] at h

theorem rescaleMetric_get_unsupported (env : Env) (multiplier : Multiplier) (r : Metric)
    (f : String) (v : Value) (hv : v.isSupported = false) (hf : r.fields.get f = some v) :
    (rescaleMetric env multiplier r).1.fields.get f = some v := by
  rcases rescaleMetric_cases env multiplier r with h | h
  · rw [h, hf]
  · rw [h]
    show (rescaleFields env multiplier r.name r.fields.entries).1.get f = some v
    rw [rescaleFields_fst, Map.get_setAll_entries, hf, Option.map_some', rescaleField_fst]
    cases ((multiplier.array.get r.name).getD Map.empty).get f with
    | none => rfl
    | some factor => simp [Multiply_unsupported env v factor hv]

theorem percentMetric_get_other (env : Env) (cpu : Int) (r : Metric) (f : String)
    (hf : f ≠ "effectivecpu_average") :
    (percentMetric env cpu r).fields.get f = r.fields.get f := by
  rcases percentMetric_cases env cpu r with h | h
  · rw [h]
  · rw [h]
    show (percentFields cpu r.fields.entries).get f = r.fields.get f
    rw [percentFields_eq, Map.get_setAll_entries]
    cases r.fields.get f <;> simp [hf]

/-- The claim C9 as written fails for the field `effectivecpu_average`: with
the table built from `cpu effectivecpu_average=2`, the string field of
`cpu{totalmhz_average=2000, effectivecpu_average="x"}` has a configured factor
and comes out as the integer `0`. -/
theorem string_field_with_factor_overwritten :
    ¬ (∀ (i : Nat) (r : Metric) (f s : String) (factor : Flt),
        [stringUsageRecord][i]? = some r → r.fields.get f = some (Value.string s) →
        (((Apply exampleEnv (newMultiplier ["cpu effectivecpu_average=2"] false) Globals.init
          [stringUsageRecord]).self.array.get r.name).getD Map.empty).get f = some factor →
        ((Apply exampleEnv (newMultiplier ["cpu effectivecpu_average=2"] false) Globals.init
          [stringUsageRecord]).out[i]?).map (fun o => o.fields.get f) =
          some (some (Value.string s))) := by
  intro h
  have h1 := h 0 stringUsageRecord "effectivecpu_average" "x" (Flt.ofInt 2)
    (by decide) (by decide) (by decide)
  revert h1
  decide

/-- C9 (amended): for every value whose type is none of the eight numeric
types and every factor, `Multiply` returns the value unchanged; consequently a
field holding such a value has the same value in the output record of `Apply`,
provided the field is not `effectivecpu_average` or the capacity variable is
zero after the scan of the batch. -/
theorem Apply_passes_unsupported_values (env : Env) (multiplier : Multiplier) (g : Globals)
    (metricsArray : List Metric) (i : Nat) (r : Metric) (f : String) (v : Value) (factor : Flt)
    (hv : v.isSupported = false)
    (hi : metricsArray[i]? = some r)
    (hf : r.fields.get f = some v)
    (hgate : f ≠ "effectivecpu_average" ∨
      (Apply env multiplier g metricsArray).globals.totalMhz_average.isZero = true) :
    (Multiply env v factor).1 = v ∧
    ((Apply env multiplier g metricsArray).out[i]?).map (fun o => o.fields.get f) =
      some (some v) := by
  constructor
  · rw [Multiply_unsupported env v factor hv]
  · rw [Apply_out_getElem?, hi, Option.map_some', Option.map_some']
    congr 1
    have h1 := rescaleMetric_get_unsupported env (Apply env multiplier g metricsArray).self
      r f v hv hf
    unfold percentStep
    rcases hgate with h | h
    · split
      · exact h1
      · rw [percentMetric_get_other env _ _ f h]
        exact h1
    · simp [h, h1]

theorem Apply_passes_unsupported_values_witness :
    (Value.string "high").isSupported = false ∧
    [stringMemRecord][0]? = some stringMemRecord ∧
    stringMemRecord.fields.get "used_percent" = some (Value.string "high") ∧
    (((Apply exampleEnv (newMultiplier ["mem used_percent=100"] false) Globals.init
      [stringMemRecord]).self.array.get "mem").getD Map.empty).get "used_percent" =
      some (Flt.ofInt 100) ∧
    (Apply exampleEnv (newMultiplier ["mem used_percent=100"] false) Globals.init
      [stringMemRecord]).out = [stringMemRecord] ∧
    ((Multiply exampleEnv (Value.string "high") (Flt.ofInt 100)).1 = Value.string "high" ∧
    ((Apply exampleEnv (newMultiplier ["mem used_percent=100"] false) Globals.init
        [stringMemRecord]).out[0]?).map (fun o => o.fields.get "used_percent") =
      some (some (Value.string "high"))) :=
  ⟨by decide, by decide, by decide, by decide, by decide,
    Apply_passes_unsupported_values exampleEnv (newMultiplier ["mem used_percent=100"] false)
      Globals.init [stringMemRecord] 0 stringMemRecord "used_percent" (Value.string "high")
      (Flt.ofInt 100) (by decide) (by decide) (by decide) (Or.inl (by decide))⟩

/-! ## Floating point: truncation and exact conversion -/

theorem ratTrunc_intCast (z : Int) : ratTrunc (z : ℚ) = z := by
  unfold ratTrunc
  split <;> simp

theorem ratTrunc_neg (q : ℚ) : ratTrunc (-q) = -ratTrunc q := by
  unfold ratTrunc
  rcases lt_trichotomy q 0 with h | h | h
  · have h1 : 0 ≤ -q := by linarith
    have h2 : ¬ 0 ≤ q := by linarith
    simp [h1, h2, Int.floor_neg]
  · subst h; simp
  · have h1 : ¬ 0 ≤ -q := by linarith
    have h2 : 0 ≤ q := by linarith
    simp [h1, h2, Int.ceil_neg]

theorem ratTrunc_natCast_div (m d : Nat) : ratTrunc ((m : ℚ) / (d : ℚ)) = ((m / d : Nat) : Int) := by
  have h : 0 ≤ (m : ℚ) / (d : ℚ) := by positivity
  unfold ratTrunc
  rw [if_pos h]
  have := Rat.floor_intCast_div_natCast (m : Int) d
  simpa using this

theorem Flt.signedNat_cast (neg : Bool) (m : Nat) :
    ((Flt.signedNat neg m : Int) : ℚ) = (if neg then -1 else 1) * (m : ℚ) := by
  cases neg <;> simp [Flt.signedNat]

/-- The truncation of the model is the truncation toward zero of the number denoted. -/
theorem Flt.trunc_eq_ratTrunc (x : Flt) (n : Int) (q : ℚ) (hn : x.trunc = some n)
    (hq : x.toRat = some q) : n = ratTrunc q := by
  cases x with
  | nan => simp [Flt.trunc] at hn
  | inf s => simp [Flt.trunc] at hn
  | fin neg m e =>
    simp only [Flt.toRat, Option.some.injEq] at hq
    subst hq
    simp only [Flt.trunc] at hn
    by_cases he : 0 ≤ e
    · rw [if_pos he] at hn
      have hn1 := Option.some.inj hn
      subst hn1
      have hz : ((2 : ℚ) ^ e) = (((2 ^ e.toNat : Nat) : Int) : ℚ) := by
        conv_lhs => rw [← Int.toNat_of_nonneg he]
        rw [zpow_natCast]
        push_cast
        rfl
      rw [hz, ← Flt.signedNat_cast, ← Int.cast_mul, ratTrunc_intCast]
    · rw [if_neg he] at hn
      have hn1 := Option.some.inj hn
      subst hn1
      have hneg : 0 ≤ -e := by omega
      have hz : ((2 : ℚ) ^ e) = (((2 ^ (-e).toNat : Nat) : ℚ))⁻¹ := by
        have : e = -((-e).toNat : Int) := by rw [Int.toNat_of_nonneg hneg]; ring
        conv_lhs => rw [this]
        rw [zpow_neg, zpow_natCast]
        push_cast
        rfl
      rw [hz]
      cases neg with
      | false =>
        simp only [Flt.signedNat, Bool.false_eq_true, if_false, one_mul]
        rw [← div_eq_mul_inv, ratTrunc_natCast_div]
        rw [Int.tdiv_eq_ediv (by positivity) (by positivity)]
        push_cast
        rfl
      | true =>
        simp only [Flt.signedNat, if_true]
        rw [Int.neg_tdiv, Int.tdiv_eq_ediv (by positivity) (by positivity)]
        have : (-1 : ℚ) * (m : ℚ) * (((2 ^ (-e).toNat : Nat) : ℚ))⁻¹ =
            -((m : ℚ) / ((2 ^ (-e).toNat : Nat) : ℚ)) := by ring
        rw [this, ratTrunc_neg, ratTrunc_natCast_div]
        push_cast
        rfl

theorem bitLenAux_spec (fuel : Nat) : ∀ n : Nat, n ≤ fuel →
    n < 2 ^ bitLenAux fuel n ∧ ∀ k : Nat, n < 2 ^ k → bitLenAux fuel n ≤ k := by
  induction fuel with
  | zero =>
    intro n hn
    have h0 : n = 0 := by omega
    subst h0
    simp [bitLenAux]
  | succ fuel ih =>
    intro n hn
    by_cases h0 : n = 0
    · subst h0
      simp [bitLenAux]
    · have hhalf : n / 2 ≤ fuel := by omega
      obtain ⟨h1, h2⟩ := ih (n / 2) hhalf
      simp only [bitLenAux, if_neg h0]
      constructor
      · rw [pow_succ]
        omega
      · intro k hk
        cases k with
        | zero => simp at hk; omega
        | succ k =>
          have : n / 2 < 2 ^ k := by
            rw [pow_succ] at hk
            omega
          have := h2 k this
          omega

theorem lt_two_pow_bitLen (n : Nat) : n < 2 ^ bitLen n := (bitLenAux_spec n n le_rfl).1

theorem bitLen_le_of_lt {n k : Nat} (h : n < 2 ^ k) : bitLen n ≤ k :=
  (bitLenAux_spec n n le_rfl).2 k h

theorem bitLen_pos {n : Nat} (h : 0 < n) : 0 < bitLen n := by
  by_contra hc
  have h0 : bitLen n = 0 := by omega
  have := lt_two_pow_bitLen n
  rw [h0] at this
  omega

theorem two_pow_bitLen_pred_le {n : Nat} (h : 0 < n) : 2 ^ (bitLen n - 1) ≤ n := by
  by_contra hc
  have hlt : n < 2 ^ (bitLen n - 1) := by omega
  have := bitLen_le_of_lt hlt
  have := bitLen_pos h
  omega

theorem ilog2Frac_one {n : Nat} (h : 0 < n) : ilog2Frac n 1 = (bitLen n : Int) - 1 := by
  have hb := bitLen_pos h
  have hle := two_pow_bitLen_pred_le h
  have h1 : bitLen 1 = 1 := by decide
  unfold ilog2Frac
  simp only [h1]
  have hk : (0 : Int) ≤ (bitLen n : Int) - ((1 : Nat) : Int) := by omega
  have ht : ((bitLen n : Int) - ((1 : Nat) : Int)).toNat = bitLen n - 1 := by omega
  simp [hk, ht, hle]
  omega

/-- An integer below `2^53` converts to `float64` without rounding. -/
theorem roundFrac_exact (neg : Bool) {n : Nat} (h0 : 0 < n) (h : n < 2 ^ 53) :
    roundFrac binary64 neg n 1 0 =
      .fin neg (n * 2 ^ (53 - bitLen n)) ((bitLen n : Int) - 53) := by
  have hb := bitLen_pos h0
  have hb53 : bitLen n ≤ 53 := bitLen_le_of_lt h
  have hlt := lt_two_pow_bitLen n
  have hm : n * 2 ^ (53 - bitLen n) < 2 ^ 53 := by
    calc n * 2 ^ (53 - bitLen n) < 2 ^ bitLen n * 2 ^ (53 - bitLen n) :=
          Nat.mul_lt_mul_of_pos_right hlt (by positivity)
      _ = 2 ^ 53 := by rw [← pow_add]; congr 1; omega
  have hm0 : n * 2 ^ (53 - bitLen n) ≠ 0 := by positivity
  unfold roundFrac
  rw [if_neg (by omega), ilog2Frac_one h0]
  simp only [binary64]
  have hulp : max ((bitLen n : Int) - 1 + 0 - (((53 : Nat) : Int) - 1)) (-1074) =
      (bitLen n : Int) - 53 := by
    rw [max_eq_left] <;> omega
  rw [hulp]
  have hs : (0 : Int) ≤ 0 - ((bitLen n : Int) - 53) := by omega
  have hst : (0 - ((bitLen n : Int) - 53)).toNat = 53 - bitLen n := by omega
  have hne : n * 2 ^ (53 - bitLen n) ≠ 2 ^ 53 := by omega
  have hmax : ¬ (971 : Int) < (bitLen n : Int) - 53 := by omega
  simp only [if_pos hs, hst, Nat.div_one, Nat.mod_one]
  simp [hm0, hmax]
  intro hc
  exact absurd hc (by omega)

theorem Flt.ofInt_toRat (n : Int) (hn : n.natAbs ≤ 2 ^ 53) :
    (Flt.ofInt n).toRat = some (n : ℚ) := by
  rcases Nat.eq_zero_or_pos n.natAbs with h0 | h0
  · have : n = 0 := Int.natAbs_eq_zero.mp h0
    subst this
    simp [Flt.ofInt, roundFrac, Flt.toRat]
  · rcases Nat.lt_or_ge n.natAbs (2 ^ 53) with hlt | hge
    · unfold Flt.ofInt
      rw [roundFrac_exact _ h0 hlt]
      have hb53 : bitLen n.natAbs ≤ 53 := bitLen_le_of_lt hlt
      simp only [Flt.toRat]
      have hpow : (2 : ℚ) ^ ((bitLen n.natAbs : Int) - 53) =
          ((2 : ℚ) ^ (53 - bitLen n.natAbs))⁻¹ := by
        have : ((bitLen n.natAbs : Int) - 53) = -((53 - bitLen n.natAbs : Nat) : Int) := by omega
        rw [this, zpow_neg, zpow_natCast]
      rw [hpow]
      push_cast
      have hne : ((2 : ℚ) ^ (53 - bitLen n.natAbs)) ≠ 0 := by positivity
      have habs : (n : ℚ) = (if decide (n < 0) = true then -1 else 1) * (n.natAbs : ℚ) := by
        by_cases hneg : n < 0
        · simp only [hneg, decide_True, if_true]
          have : (n.natAbs : Int) = -n := by omega
          have hc : ((n.natAbs : Int) : ℚ) = (n.natAbs : ℚ) := Int.cast_natCast _
          rw [← hc, this]
          push_cast
          ring
        · simp only [hneg, decide_False, Bool.false_eq_true, if_false]
          have : (n.natAbs : Int) = n := by omega
          have hc : ((n.natAbs : Int) : ℚ) = (n.natAbs : ℚ) := Int.cast_natCast _
          rw [← hc, this]
          ring
      rw [habs]
      congr 1
      field_simp
    · have hab : n.natAbs = 2 ^ 53 := by omega
      have hcase : n = 9007199254740992 ∨ n = -9007199254740992 := by omega
      rcases hcase with h | h
      · subst h
        have : Flt.ofInt 9007199254740992 = .fin false 4503599627370496 1 := by decide
        rw [this]
        simp only [Flt.toRat]
        norm_num
      · subst h
        have : Flt.ofInt (-9007199254740992) = .fin true 4503599627370496 1 := by decide
        rw [this]
        simp only [Flt.toRat]
        norm_num

theorem Flt.trunc_of_toRat (x : Flt) (q : ℚ) (hq : x.toRat = some q) :
    x.trunc = some (ratTrunc q) := by
  cases x with
  | nan => simp [Flt.toRat] at hq
  | inf s => simp [Flt.toRat] at hq
  | fin neg m e =>
    have hsome : ∃ n, (Flt.fin neg m e).trunc = some n := by
      simp only [Flt.trunc]
      split <;> exact ⟨_, rfl⟩
    obtain ⟨n, hn⟩ := hsome
    rw [hn, Flt.trunc_eq_ratTrunc _ n q hn hq]

theorem Env.toInt_of_toRat (env : Env) (k : IntKind) (x : Flt) (q : ℚ) (hq : x.toRat = some q)
    (hr : k.inRange env (ratTrunc q) = true) : env.toInt k x = ratTrunc q := by
  unfold Env.toInt
  rw [Flt.trunc_of_toRat x q hq]
  simp [hr]

theorem ratTrunc_of_nonneg {q : ℚ} (h : 0 ≤ q) : ratTrunc q = ⌊q⌋ := by
  simp [ratTrunc, h]

theorem ratTrunc_of_neg {q : ℚ} (h : q < 0) : ratTrunc q = ⌈q⌉ := by
  simp [ratTrunc, not_le.mpr h]

/-! ## The percentage formula -/

theorem negative_quotient_toRat :
    (((Flt.ofInt (-1)).mul (Flt.ofInt 100)).div (Flt.ofInt 8)).toRat = some (-25 / 2) := by
  have h : ((Flt.ofInt (-1)).mul (Flt.ofInt 100)).div (Flt.ofInt 8) =
      .fin true 7036874417766400 (-49) := by decide
  rw [h]
  simp only [Flt.toRat]
  norm_num

/-- The claim C6 as written fails for a negative quotient: from
`cpu{totalmhz_average=8, effectivecpu_average=-1}` the accumulators are `8` and
`-1`, the quotient `-1 * 100 / 8` is `-12.5`, its floor is `-13`, and `Apply`
writes `-12`. -/
theorem percentage_is_not_floor :
    (Apply exampleEnv (newMultiplier [] false) Globals.init [negativeUsageRecord]).globals =
      ⟨Flt.ofInt 8, Flt.ofInt (-1)⟩ ∧
    (Flt.ofInt 8).isZero = false ∧
    ((Apply exampleEnv (newMultiplier [] false) Globals.init [negativeUsageRecord]).out[0]?).map
      (fun o => o.fields.get "effectivecpu_average") = some (some (Value.int (-12))) ∧
    (((Flt.ofInt (-1)).mul (Flt.ofInt 100)).div (Flt.ofInt 8)).toRat = some (-25 / 2) ∧
    ⌊(-25 / 2 : ℚ)⌋ = -13 := by
  refine ⟨by decide, by decide, by decide, negative_quotient_toRat, ?_⟩
  rw [Int.floor_eq_iff]
  norm_num

/-- C6 (amended): whenever the `float64` quotient `usage * 100 / capacity` is
finite and its truncation fits in an `int`, the integer that `Apply` writes is
that quotient truncated toward zero: its floor when the quotient is not
negative, its ceiling when it is negative. -/
theorem cpu_available_truncates (env : Env) (g : Globals) (q : ℚ)
    (hq : ((g.effectivecpu_average.mul (Flt.ofInt 100)).div g.totalMhz_average).toRat = some q)
    (hr : IntKind.int.inRange env (ratTrunc q) = true) :
    cpu_available env g = ratTrunc q ∧
    (0 ≤ q → cpu_available env g = ⌊q⌋) ∧
    (q < 0 → cpu_available env g = ⌈q⌉) := by
  have h : cpu_available env g = ratTrunc q := Env.toInt_of_toRat env .int _ q hq hr
  exact ⟨h, fun h0 => by rw [h, ratTrunc_of_nonneg h0], fun h0 => by rw [h, ratTrunc_of_neg h0]⟩

theorem ratTrunc_neg_twentyfive_halves : ratTrunc (-25 / 2) = -12 := by
  rw [ratTrunc_of_neg (by norm_num), Int.ceil_eq_iff]
  norm_num

theorem cpu_available_truncates_witness :
    (((Flt.ofInt (-1)).mul (Flt.ofInt 100)).div (Flt.ofInt 8)).toRat = some (-25 / 2) ∧
    IntKind.int.inRange exampleEnv (ratTrunc (-25 / 2)) = true ∧
    ratTrunc (-25 / 2) = -12 ∧
    (cpu_available exampleEnv ⟨Flt.ofInt 8, Flt.ofInt (-1)⟩ = ratTrunc (-25 / 2) ∧
    ((0 : ℚ) ≤ -25 / 2 → cpu_available exampleEnv ⟨Flt.ofInt 8, Flt.ofInt (-1)⟩ = ⌊(-25 / 2 : ℚ)⌋) ∧
    ((-25 / 2 : ℚ) < 0 →
      cpu_available exampleEnv ⟨Flt.ofInt 8, Flt.ofInt (-1)⟩ = ⌈(-25 / 2 : ℚ)⌉)) :=
  ⟨negative_quotient_toRat,
    by rw [ratTrunc_neg_twentyfive_halves]; decide,
    ratTrunc_neg_twentyfive_halves,
    cpu_available_truncates exampleEnv ⟨Flt.ofInt 8, Flt.ofInt (-1)⟩ (-25 / 2)
      negative_quotient_toRat (by rw [ratTrunc_neg_twentyfive_halves]; decide)⟩

/-! ## Multiply truncates -/

theorem Multiply_ofKind (env : Env) (k : IntKind) (hk : k.signed = true) (v : Int) (f : Flt) :
    (Multiply env (Value.ofKind k v) f).1 = Value.ofKind k (env.toInt k (f.mul (Flt.ofInt v))) := by
  cases k <;> first | rfl | simp [IntKind.signed] at hk

theorem half_toRat : half.toRat = some (1 / 2) := by
  simp [half, Flt.toRat]

theorem half_mul_seven_toRat :
    (half.mul (Flt.ofInt 7)).toRat = (half.toRat).map (fun a => a * ((7 : Int) : ℚ)) := by
  have h : half.mul (Flt.ofInt 7) = .fin false 7881299347898368 (-51) := by decide
  rw [h, half_toRat]
  simp only [Flt.toRat, Option.map_some']
  norm_num

theorem ratTrunc_seven_halves : ratTrunc (1 / 2 * ((7 : Int) : ℚ)) = 3 := by
  rw [ratTrunc_of_nonneg (by norm_num), Int.floor_eq_iff]
  norm_num

/-- C8: for every signed integer value `v` of type `int`, `int32` or `int64`
and every finite factor `f` such that the `float64` product `f * float64(v)`
is the exact product and its truncation lies in the range of the type,
`Multiply(v, f)` is the exact product truncated toward zero. -/
theorem Multiply_truncates (env : Env) (k : IntKind) (v : Int) (f : Flt) (fq : ℚ)
    (hk : k.signed = true)
    (hf : f.toRat = some fq)
    (hexact : (f.mul (Flt.ofInt v)).toRat = (f.toRat).map (fun a => a * (v : ℚ)))
    (hr : k.inRange env (ratTrunc (fq * (v : ℚ))) = true) :
    (Multiply env (Value.ofKind k v) f).1 = Value.ofKind k (ratTrunc (fq * (v : ℚ))) := by
  rw [hf, Option.map_some'] at hexact
  rw [Multiply_ofKind env k hk, Env.toInt_of_toRat env k _ _ hexact hr]

theorem Multiply_truncates_witness :
    IntKind.int64.signed = true ∧
    half.toRat = some (1 / 2) ∧
    (half.mul (Flt.ofInt 7)).toRat = (half.toRat).map (fun a => a * ((7 : Int) : ℚ)) ∧
    IntKind.int64.inRange exampleEnv (ratTrunc (1 / 2 * ((7 : Int) : ℚ))) = true ∧
    ratTrunc (1 / 2 * ((7 : Int) : ℚ)) = 3 ∧
    (Multiply exampleEnv (Value.int64 7) half).1 = Value.int64 3 ∧
    (Multiply exampleEnv (Value.int64 (-7)) half).1 = Value.int64 (-3) ∧
    (Multiply exampleEnv (Value.int64 50) (Flt.ofInt 100)).1 = Value.int64 5000 ∧
    (Multiply exampleEnv (Value.ofKind .int64 7) half).1 =
      Value.ofKind .int64 (ratTrunc (1 / 2 * ((7 : Int) : ℚ))) :=
  ⟨by decide, half_toRat, half_mul_seven_toRat,
    by rw [ratTrunc_seven_halves]; decide, ratTrunc_seven_halves, by decide, by decide, by decide,
    Multiply_truncates exampleEnv .int64 7 half (1 / 2) (by decide) half_toRat
      half_mul_seven_toRat (by rw [ratTrunc_seven_halves]; decide)⟩

/-! ## toFloat -/

/-- The claim C10 as written fails for a large `int64`: `2^53 + 1` is
converted to the `float64` `2^53`, which is a different number. -/
theorem toFloat_rounds_large_int64 :
    (toFloat (Value.int64 9007199254740993)).1 = Flt.fin false 4503599627370496 1 ∧
    (Flt.fin false 4503599627370496 1).toRat = some (9007199254740992 : ℚ) ∧
    (toFloat (Value.int64 9007199254740993)).1.toRat ≠ some (((9007199254740993 : Int) : ℚ)) := by
  have h1 : (toFloat (Value.int64 9007199254740993)).1 = Flt.fin false 4503599627370496 1 := by
    decide
  have h2 : (Flt.fin false 4503599627370496 1).toRat = some (9007199254740992 : ℚ) := by
    simp only [Flt.toRat]
    norm_num
  refine ⟨h1, h2, ?_⟩
  rw [h1, h2]
  norm_num

/-- C10 (amended): for every value of type `int`, `int32` or `int64` whose
magnitude is at most `2^53` (every `int32` is), `toFloat` returns the
`float64` that denotes the same number, and for every `float32` or `float64`
value it returns the value itself. -/
theorem toFloat_exact (n : Int) (x : Flt) (hn : n.natAbs ≤ 2 ^ 53) :
    (toFloat (Value.int n)).1.toRat = some (n : ℚ) ∧
    (toFloat (Value.int32 n)).1.toRat = some (n : ℚ) ∧
    (toFloat (Value.int64 n)).1.toRat = some (n : ℚ) ∧
    (toFloat (Value.float32 x)).1 = x ∧
    (toFloat (Value.float64 x)).1 = x :=
  ⟨Flt.ofInt_toRat n hn, Flt.ofInt_toRat n hn, Flt.ofInt_toRat n hn, rfl, rfl⟩

theorem toFloat_exact_witness :
    (2000 : Int).natAbs ≤ 2 ^ 53 ∧
    (toFloat (Value.int64 2000)).1 = Flt.fin false 8796093022208000 (-42) ∧
    ((toFloat (Value.int 2000)).1.toRat = some ((2000 : Int) : ℚ) ∧
    (toFloat (Value.int32 2000)).1.toRat = some ((2000 : Int) : ℚ) ∧
    (toFloat (Value.int64 2000)).1.toRat = some ((2000 : Int) : ℚ) ∧
    (toFloat (Value.float32 half)).1 = half ∧
    (toFloat (Value.float64 half)).1 = half) :=
  ⟨by decide, by decide, toFloat_exact 2000 half (by decide)⟩

/-- The switch of `toFloat` has no case for the unsigned types: they take the
default branch, which prints a diagnostic and gives zero. -/
theorem toFloat_unsigned (n : Nat) :
    toFloat (Value.uint n) = (.fin false 0 0, [LogLine.cannotFloat (Value.uint n)]) ∧
    toFloat (Value.uint32 n) = (.fin false 0 0, [LogLine.cannotFloat (Value.uint32 n)]) ∧
    toFloat (Value.uint64 n) = (.fin false 0 0, [LogLine.cannotFloat (Value.uint64 n)]) :=
  ⟨rfl, rfl, rfl⟩

/-! ## Initialize: the factor table -/

theorem storeFactors_fst (keeper : Map Flt) (l : List (String × Value)) :
    (storeFactors keeper l).1 = Map.setAll (fun _ v => (toFloat v).1) l keeper :=
  Map.foldl_logged_fst (fun kv => toFloat kv.2) l keeper []

theorem Map.get_setAll_entries_acc {α β : Type} (f : String → α → β) (m : Map α) (acc : Map β)
    (k : String) :
    (Map.setAll f m.entries acc).get k =
      match m.get k with
      | some v => some (f k v)
      | none => acc.get k := by
  have h := Map.get_setAll_entriesAux f k m.items [] acc
  have h2 := Map.lookupKey_entriesAux k [] m.items
  simp only [List.not_mem_nil, if_false] at h2
  rw [Map.entries, h, h2]
  rfl

theorem initLine_of_error (env : Env) (array : Map (Map Flt)) (str err : String)
    (h : env.parseLine str = .error err) : (initLine env array str).1 = array := by
  simp [initLine, h]

theorem factorOf_initLine_ok (env : Env) (array : Map (Map Flt)) (str : String) (r : Metric)
    (h : env.parseLine str = .ok r) (n f : String) :
    factorOf (initLine env array str).1 n f =
      match (if r.name = n then r.fields.get f else none) with
      | some v => some (toFloat v).1
      | none => factorOf array n f := by
  simp only [initLine, h, factorOf]
  by_cases hn : r.name = n
  · subst hn
    rw [Map.get_set_self, Option.getD_some, storeFactors_fst, Map.get_setAll_entries_acc]
    cases r.fields.get f <;> simp
  · have hn1 : n ≠ r.name := fun e => hn e.symm
    rw [Map.get_set_ne _ hn1]
    simp [hn]

theorem factorOf_initLines (env : Env) (n f : String) (l : List String) :
    ∀ array : Map (Map Flt),
      factorOf (initLines env l array).1 n f =
        match lastValue (decodedLines env l) n f with
        | some v => some (toFloat v).1
        | none => factorOf array n f := by
  induction l with
  | nil => intro array; simp [initLines, decodedLines, lastValue]
  | cons str rest ih =>
    intro array
    simp only [initLines]
    rw [ih]
    cases hp : env.parseLine str with
    | error err =>
      simp only [decodedLines, hp]
      rw [initLine_of_error env array str err hp]
    | ok r =>
      simp only [decodedLines, hp, lastValue]
      cases hl : lastValue (decodedLines env rest) n f with
      | some v => rfl
      | none =>
        simp only []
        rw [factorOf_initLine_ok env array str r hp]

theorem initLines_filter (env : Env) (l : List String) :
    ∀ array : Map (Map Flt),
      (initLines env (l.filter (decodes env)) array).1 = (initLines env l array).1 := by
  induction l with
  | nil => intro array; rfl
  | cons str rest ih =>
    intro array
    cases hp : env.parseLine str with
    | error err =>
      have hd : decodes env str = false := by simp [decodes, hp]
      rw [List.filter_cons_of_neg (by simp [hd])]
      simp only [initLines]
      rw [initLine_of_error env array str err hp]
      exact ih array
    | ok r =>
      have hd : decodes env str = true := by simp [decodes, hp]
      rw [List.filter_cons_of_pos hd]
      simp only [initLines]
      exact ih _

theorem lastValue_isSome_iff (l : List Metric) (n f : String) :
    (lastValue l n f).isSome = true ↔
      ∃ r, r ∈ l ∧ r.name = n ∧ r.fields.contains f = true := by
  induction l with
  | nil => simp [lastValue]
  | cons hd tl ih =>
    simp only [lastValue, List.mem_cons]
    cases hl : lastValue tl n f with
    | some v =>
      rw [hl] at ih
      simp only [Option.isSome_some, true_iff]
      obtain ⟨r, hr, h1, h2⟩ := ih.mp rfl
      exact ⟨r, Or.inr hr, h1, h2⟩
    | none =>
      rw [hl] at ih
      simp only []
      constructor
      · intro h
        by_cases hn : hd.name = n
        · rw [if_pos hn] at h
          exact ⟨hd, Or.inl rfl, hn, h⟩
        · rw [if_neg hn] at h
          simp at h
      · rintro ⟨r, hr | hr, h1, h2⟩
        · subst hr
          rw [if_pos h1]
          exact h2
        · have := ih.mpr ⟨r, hr, h1, h2⟩
          simp at this

/-- C11: `Initialize` returns no error, and the table it builds is the table
built from the sub-list of the configuration lines that the line parser
decodes: a line that fails to decode adds nothing and stops nothing. -/
theorem Initialize_skips_malformed_lines (env : Env) (multiplier : Multiplier) :
    (Initialize env multiplier).2.1 = none ∧
    (Initialize env multiplier).1.array =
      (Initialize env
        { multiplier with Config := multiplier.Config.filter (decodes env) }).1.array := by
  refine ⟨rfl, ?_⟩
  simp only [Initialize]
  exact (initLines_filter env multiplier.Config Map.empty).symm

/-- One valid line with a garbage line after it or before it gives the table
of the valid line alone. -/
theorem Initialize_garbage_line_example :
    (Initialize exampleEnv (newMultiplier ["mem used_percent=100", "garbage"] false)).1.array =
      (Initialize exampleEnv (newMultiplier ["mem used_percent=100"] false)).1.array ∧
    (Initialize exampleEnv (newMultiplier ["garbage", "mem used_percent=100"] false)).1.array =
      (Initialize exampleEnv (newMultiplier ["mem used_percent=100"] false)).1.array ∧
    (Initialize exampleEnv (newMultiplier ["mem used_percent=100"] false)).1.array =
      ⟨[("mem", ⟨[("used_percent", Flt.ofInt 100)]⟩)]⟩ := by
  refine ⟨by decide, by decide, by decide⟩

/-- C12: after `Initialize`, `table[n][f]` is defined exactly when some
decoded configuration line has the name `n` and a field `f`, and it is then
`toFloat` of the value of `f` in the last such line; lines for one name are
merged field by field. -/
theorem Initialize_last_line_wins (env : Env) (multiplier : Multiplier) (n f : String) :
    factorOf (Initialize env multiplier).1.array n f =
      (lastValue (decodedLines env multiplier.Config) n f).map (fun v => (toFloat v).1) ∧
    ((factorOf (Initialize env multiplier).1.array n f).isSome = true ↔
      ∃ r, r ∈ decodedLines env multiplier.Config ∧ r.name = n ∧
        r.fields.contains f = true) := by
  have h : factorOf (Initialize env multiplier).1.array n f =
      (lastValue (decodedLines env multiplier.Config) n f).map (fun v => (toFloat v).1) := by
    simp only [Initialize]
    rw [factorOf_initLines]
    cases lastValue (decodedLines env multiplier.Config) n f with
    | some v => rfl
    | none => rfl
  refine ⟨h, ?_⟩
  rw [h, Option.isSome_map']
  exact lastValue_isSome_iff _ n f

/-! ## The accumulators -/

theorem captureAccumulators_fst (r : Metric) (g : Globals) :
    (captureAccumulators r g).1 =
      ⟨match r.fields.get "totalmhz_average" with
        | some v => (toFloat v).1
        | none => g.totalMhz_average,
       match r.fields.get "effectivecpu_average" with
        | some v => (toFloat v).1
        | none => g.effectivecpu_average⟩ := by
  unfold captureAccumulators
  cases r.fields.get "totalmhz_average" <;> cases r.fields.get "effectivecpu_average" <;> rfl

theorem reading_cons (field : String) (r : Metric) (rest : List Metric) (prior : Flt) :
    reading field (r :: rest) prior =
      reading field rest (match r.fields.get field with
        | some v => (toFloat v).1
        | none => prior) := by
  unfold reading
  simp only [lastReading]
  cases lastReading field rest with
  | some v => rfl
  | none => cases r.fields.get field <;> rfl

/-- The package-level variables after the first loop depend on the batch and
on their earlier values only. -/
theorem rescaleLoop_globals (env : Env) (multiplier : Multiplier) (l : List Metric) :
    ∀ g : Globals,
      (rescaleLoop env multiplier l g).globals =
        ⟨reading "totalmhz_average" l g.totalMhz_average,
         reading "effectivecpu_average" l g.effectivecpu_average⟩ := by
  induction l with
  | nil => intro g; rfl
  | cons r rest ih =>
    intro g
    simp only [rescaleLoop]
    rw [ih, captureAccumulators_fst, reading_cons, reading_cons]

theorem Apply_globals_eq (env : Env) (multiplier : Multiplier) (g : Globals) (l : List Metric) :
    (Apply env multiplier g l).globals =
      ⟨reading "totalmhz_average" l g.totalMhz_average,
       reading "effectivecpu_average" l g.effectivecpu_average⟩ := by
  rw [Apply_globals]
  exact rescaleLoop_globals env _ l g

/-- C14: after `Apply` on a batch, each accumulator is `toFloat` of the value
in the last record of the batch that carries the corresponding field, or the
value it had before the call when no record carries the field; the call is
given the values the previous call left. -/
theorem Apply_accumulators_latest_reading (env : Env) (multiplier : Multiplier) (g : Globals)
    (metricsArray : List Metric) :
    (Apply env multiplier g metricsArray).globals.totalMhz_average =
      (match lastReading "totalmhz_average" metricsArray with
        | some v => (toFloat v).1
        | none => g.totalMhz_average) ∧
    (Apply env multiplier g metricsArray).globals.effectivecpu_average =
      (match lastReading "effectivecpu_average" metricsArray with
        | some v => (toFloat v).1
        | none => g.effectivecpu_average) := by
  rw [Apply_globals_eq]
  exact ⟨rfl, rfl⟩

/-- A capacity reading of one call is still there in the next call: after
`Apply([a{totalmhz_average=2000}])`, the call `Apply([b{effectivecpu_average=500}])`
returns `b{effectivecpu_average=25}`. -/
theorem accumulators_persist_example :
    (Apply exampleEnv (newMultiplier [] false) Globals.init [capacityRecord]).globals =
      ⟨Flt.ofInt 2000, .fin false 0 0⟩ ∧
    (Apply exampleEnv (Apply exampleEnv (newMultiplier [] false) Globals.init
        [capacityRecord]).self
      (Apply exampleEnv (newMultiplier [] false) Globals.init [capacityRecord]).globals
      [usageRecord]).out = [usagePercentRecord] := by
  refine ⟨by decide, by decide⟩

/-- C16: the accumulators after `Apply`, and with them the percentage that is
written, do not depend on the instance and its factor table: they are read
from the incoming records, so they are what an empty table gives. -/
theorem Apply_accumulators_ignore_table (env : Env) (multiplier : Multiplier) (g : Globals)
    (metricsArray : List Metric) :
    (Apply env multiplier g metricsArray).globals =
      (Apply env ⟨[], false, true, Map.empty⟩ g metricsArray).globals ∧
    cpu_available env (Apply env multiplier g metricsArray).globals =
      cpu_available env (Apply env ⟨[], false, true, Map.empty⟩ g metricsArray).globals ∧
    (Apply env ⟨[], false, true, Map.empty⟩ g metricsArray).self.array = Map.empty := by
  rw [Apply_globals_eq, Apply_globals_eq, Apply_self]
  exact ⟨rfl, rfl, rfl⟩

/-- With the table `{cpu: {totalmhz_average: 2, effectivecpu_average: 3}}` and
zero accumulators, `cpu{totalmhz_average=2000, effectivecpu_average=500}`
leaves capacity 2000 and usage 500, and 25 is written. -/
theorem accumulators_ignore_table_example :
    (Apply exampleEnv cpuFactorsMultiplier Globals.init [cpuRecord]).globals =
      ⟨Flt.ofInt 2000, Flt.ofInt 500⟩ ∧
    (Apply exampleEnv cpuFactorsMultiplier Globals.init [cpuRecord]).out =
      [{ cpuRecord with fields :=
          ⟨[("totalmhz_average", .int64 4000), ("effectivecpu_average", .int 25)]⟩ }] := by
  refine ⟨by decide, by decide⟩

/-- C18: the two accumulators belong to the process: when an instance `B` is
applied after an instance `A` to a batch without a capacity reading, the
capacity that `B` uses is the one that `A` captured. -/
theorem accumulators_shared_between_instances (env : Env) (A B : Multiplier) (g : Globals)
    (batchA batchB : List Metric)
    (hnone : lastReading "totalmhz_average" batchB = none) :
    (Apply env B (Apply env A g batchA).globals batchB).globals.totalMhz_average =
      (Apply env A g batchA).globals.totalMhz_average ∧
    (Apply env A g batchA).globals.totalMhz_average =
      (match lastReading "totalmhz_average" batchA with
        | some v => (toFloat v).1
        | none => g.totalMhz_average) := by
  constructor
  · rw [Apply_globals_eq env B]
    simp only [reading, hnone]
  · rw [Apply_globals_eq]
    rfl

theorem accumulators_shared_between_instances_witness :
    lastReading "totalmhz_average" [usageRecord] = none ∧
    newMultiplier [] false ≠ otherMultiplier ∧
    (Apply exampleEnv otherMultiplier
      (Apply exampleEnv (newMultiplier [] false) Globals.init [capacityRecord]).globals
      [usageRecord]).out = [usagePercentRecord] ∧
    ((Apply exampleEnv otherMultiplier
        (Apply exampleEnv (newMultiplier [] false) Globals.init [capacityRecord]).globals
        [usageRecord]).globals.totalMhz_average =
      (Apply exampleEnv (newMultiplier [] false) Globals.init
        [capacityRecord]).globals.totalMhz_average ∧
    (Apply exampleEnv (newMultiplier [] false) Globals.init
        [capacityRecord]).globals.totalMhz_average =
      (match lastReading "totalmhz_average" [capacityRecord] with
        | some v => (toFloat v).1
        | none => Globals.init.totalMhz_average)) :=
  ⟨by decide, by decide, by decide,
    accumulators_shared_between_instances exampleEnv (newMultiplier [] false) otherMultiplier
      Globals.init [capacityRecord] [usageRecord] (by decide)⟩

/-! ## The percentage pass touches one field -/

theorem Apply_out_of_rescalePass (env : Env) (multiplier : Multiplier) (g : Globals)
    (l : List Metric) :
    (Apply env multiplier g l).out =
      (rescalePass env multiplier g l).out.map
        (percentStep env (Apply env multiplier g l).globals) := by
  rw [rescalePass_out, List.map_map]
  exact Apply_out env multiplier g l

theorem percentMetric_contains (env : Env) (cpu : Int) (r : Metric) (k : String) :
    (percentMetric env cpu r).fields.contains k = r.fields.contains k := by
  rcases percentMetric_cases env cpu r with h | h
  · rw [h]
  · rw [h]
    show (percentFields cpu r.fields.entries).contains k = r.fields.contains k
    rw [percentFields_eq]
    exact Map.contains_setAll_entries _ _ _

theorem percentStep_contains (env : Env) (g : Globals) (r : Metric) (k : String) :
    (percentStep env g r).fields.contains k = r.fields.contains k := by
  unfold percentStep
  split
  · rfl
  · exact percentMetric_contains env _ r k

theorem percentStep_get_other (env : Env) (g : Globals) (r : Metric) (f : String)
    (hf : f ≠ "effectivecpu_average") :
    (percentStep env g r).fields.get f = r.fields.get f := by
  unfold percentStep
  split
  · rfl
  · exact percentMetric_get_other env _ r f hf

/-- C15: whatever the percentage pass does to a slot, the record it leaves
has the name, tags, timestamp, kind and field names of the record the rescale
pass produced, and every field other than `effectivecpu_average` has the value
the rescale pass gave it. -/
theorem percentage_pass_touches_one_field (env : Env) (multiplier : Multiplier) (g : Globals)
    (metricsArray : List Metric) (i : Nat) (p : Metric)
    (hi : (rescalePass env multiplier g metricsArray).out[i]? = some p) :
    ∃ out : Metric, (Apply env multiplier g metricsArray).out[i]? = some out ∧
      out.name = p.name ∧ out.tags = p.tags ∧ out.time = p.time ∧ out.tp = p.tp ∧
      (∀ f : String, out.fields.contains f = p.fields.contains f) ∧
      ∀ f : String, f ≠ "effectivecpu_average" → out.fields.get f = p.fields.get f := by
  refine ⟨percentStep env (Apply env multiplier g metricsArray).globals p, ?_, ?_⟩
  · rw [Apply_out_of_rescalePass, List.getElem?_map, hi, Option.map_some']
  · have hs := percentStep_shape env (Apply env multiplier g metricsArray).globals p
    exact ⟨hs.1, hs.2.1, hs.2.2.1, hs.2.2.2, fun f => percentStep_contains env _ p f,
      fun f hf => percentStep_get_other env _ p f hf⟩

theorem percentage_pass_touches_one_field_witness :
    (rescalePass exampleEnv cpuFactorsMultiplier Globals.init [cpuRecord]).out[0]? =
      some { cpuRecord with fields :=
        ⟨[("totalmhz_average", .int64 4000), ("effectivecpu_average", .int64 1500)]⟩ } ∧
    (Apply exampleEnv cpuFactorsMultiplier Globals.init [cpuRecord]).out[0]? =
      some { cpuRecord with fields :=
        ⟨[("totalmhz_average", .int64 4000), ("effectivecpu_average", .int 25)]⟩ } ∧
    ∃ out : Metric,
      (Apply exampleEnv cpuFactorsMultiplier Globals.init [cpuRecord]).out[0]? = some out ∧
      out.name = "cpu" ∧ out.tags = ⟨[]⟩ ∧ out.time = 0 ∧ out.tp = 0 ∧
      (∀ f : String, out.fields.contains f =
        (⟨[("totalmhz_average", .int64 4000),
           ("effectivecpu_average", .int64 1500)]⟩ : Map Value).contains f) ∧
      ∀ f : String, f ≠ "effectivecpu_average" → out.fields.get f =
        (⟨[("totalmhz_average", .int64 4000),
           ("effectivecpu_average", .int64 1500)]⟩ : Map Value).get f :=
  ⟨by decide, by decide,
    percentage_pass_touches_one_field exampleEnv cpuFactorsMultiplier Globals.init [cpuRecord] 0
      { cpuRecord with fields :=
        ⟨[("totalmhz_average", .int64 4000), ("effectivecpu_average", .int64 1500)]⟩ }
      (by decide)⟩

/-! ## The instance: table built once, verbose flag -/

theorem rescaleFields_congr (env : Env) (m1 m2 : Multiplier) (h : m1.array = m2.array)
    (name : String) (l : List (String × Value)) :
    (rescaleFields env m1 name l).1 = (rescaleFields env m2 name l).1 := by
  rw [rescaleFields_fst, rescaleFields_fst]
  congr 1
  funext k v
  rw [rescaleField_fst, rescaleField_fst, h]

/-- The record that the rescale pass leaves depends on the instance through
its table only. -/
theorem rescaleMetric_congr (env : Env) (m1 m2 : Multiplier) (h : m1.array = m2.array)
    (r : Metric) : (rescaleMetric env m1 r).1 = (rescaleMetric env m2 r).1 := by
  have hf := rescaleFields_congr env m1 m2 h r.name r.fields.entries
  simp only [rescaleMetric, metricNew, h]
  rw [hf]
  by_cases hc : m2.array.contains r.name = true
  · cases hn : env.newError r.name r.tags
        (rescaleFields env m2 r.name r.fields.entries).1 r.time r.tp <;> simp [hc]
  · simp [hc]

theorem Apply_out_congr (env : Env) (m1 m2 : Multiplier) (g : Globals) (l : List Metric)
    (h : (ensureInitialized env m1).1.array = (ensureInitialized env m2).1.array) :
    (Apply env m1 g l).out = (Apply env m2 g l).out := by
  rw [Apply_out, Apply_out env m2, Apply_globals_eq, Apply_globals_eq, Apply_self, Apply_self]
  apply List.map_congr_left
  intro r _
  rw [rescaleMetric_congr env _ _ h r]

theorem ensureInitialized_of_initialized (env : Env) (m : Multiplier)
    (h : m.isInitialized = true) : ensureInitialized env m = (m, []) := by
  simp [ensureInitialized, h]

theorem ensureInitialized_of_fresh (env : Env) (m : Multiplier) (h : m.isInitialized = false) :
    (ensureInitialized env m).1 =
      { m with isInitialized := true, array := (Initialize env m).1.array } := by
  simp [ensureInitialized, h, Initialize]

/-- C17: the first `Apply` of an instance builds the table from `Config` and
sets the flag; a later `Apply` on that instance leaves the table and the flag
as they are and returns what the unchanged instance returns, even when
`Config` has been changed in between. -/
theorem table_built_once (env : Env) (multiplier : Multiplier) (g g1 : Globals)
    (metricsArray later : List Metric) (config1 : List String)
    (hfresh : multiplier.isInitialized = false) :
    (Apply env multiplier g metricsArray).self.isInitialized = true ∧
    (Apply env multiplier g metricsArray).self.array = (Initialize env multiplier).1.array ∧
    (Apply env { (Apply env multiplier g metricsArray).self with Config := config1 } g1
        later).self =
      { (Apply env multiplier g metricsArray).self with Config := config1 } ∧
    (Apply env { (Apply env multiplier g metricsArray).self with Config := config1 } g1
        later).out =
      (Apply env (Apply env multiplier g metricsArray).self g1 later).out := by
  have hself := Apply_self env multiplier g metricsArray
  rw [ensureInitialized_of_fresh env multiplier hfresh] at hself
  have hflag : (Apply env multiplier g metricsArray).self.isInitialized = true := by
    rw [hself]
  have hflag1 : ({ (Apply env multiplier g metricsArray).self with
      Config := config1 } : Multiplier).isInitialized = true := hflag
  refine ⟨hflag, by rw [hself], ?_, ?_⟩
  · rw [Apply_self, ensureInitialized_of_initialized env _ hflag1]
  · apply Apply_out_congr
    rw [ensureInitialized_of_initialized env _ hflag1,
      ensureInitialized_of_initialized env _ hflag]

theorem table_built_once_witness :
    otherMultiplier.isInitialized = false ∧
    (Apply exampleEnv
      { (Apply exampleEnv otherMultiplier Globals.init []).self with
        Config := ["swap used_percent=100"] }
      Globals.init [memRecord]).out =
      [{ memRecord with fields := ⟨[("used_percent", .int64 5000)]⟩ }] ∧
    ((Apply exampleEnv otherMultiplier Globals.init []).self.isInitialized = true ∧
    (Apply exampleEnv otherMultiplier Globals.init []).self.array =
      (Initialize exampleEnv otherMultiplier).1.array ∧
    (Apply exampleEnv
      { (Apply exampleEnv otherMultiplier Globals.init []).self with
        Config := ["swap used_percent=100"] }
      Globals.init [memRecord]).self =
      { (Apply exampleEnv otherMultiplier Globals.init []).self with
        Config := ["swap used_percent=100"] } ∧
    (Apply exampleEnv
      { (Apply exampleEnv otherMultiplier Globals.init []).self with
        Config := ["swap used_percent=100"] }
      Globals.init [memRecord]).out =
      (Apply exampleEnv (Apply exampleEnv otherMultiplier Globals.init []).self Globals.init
        [memRecord]).out) :=
  ⟨by decide, by decide,
    table_built_once exampleEnv otherMultiplier Globals.init Globals.init [] [memRecord]
      ["swap used_percent=100"] (by decide)⟩

theorem ensureInitialized_array_verbose (env : Env) (multiplier : Multiplier) (b1 b2 : Bool) :
    (ensureInitialized env { multiplier with VerboseMode := b1 }).1.array =
      (ensureInitialized env { multiplier with VerboseMode := b2 }).1.array ∧
    (ensureInitialized env { multiplier with VerboseMode := b1 }).1.isInitialized =
      (ensureInitialized env { multiplier with VerboseMode := b2 }).1.isInitialized ∧
    (ensureInitialized env { multiplier with VerboseMode := b1 }).1.Config =
      (ensureInitialized env { multiplier with VerboseMode := b2 }).1.Config := by
  unfold ensureInitialized Initialize
  cases multiplier.isInitialized <;> simp

/-- C20: run with `VerboseMode` true and with `VerboseMode` false, `Apply`
returns the same batch and leaves the same factor table, flag, options and
accumulators; only the printed lines can differ. -/
theorem verbose_mode_does_not_change_result (env : Env) (multiplier : Multiplier) (g : Globals)
    (metricsArray : List Metric) :
    (Apply env { multiplier with VerboseMode := true } g metricsArray).out =
      (Apply env { multiplier with VerboseMode := false } g metricsArray).out ∧
    (Apply env { multiplier with VerboseMode := true } g metricsArray).globals =
      (Apply env { multiplier with VerboseMode := false } g metricsArray).globals ∧
    (Apply env { multiplier with VerboseMode := true } g metricsArray).self.array =
      (Apply env { multiplier with VerboseMode := false } g metricsArray).self.array ∧
    (Apply env { multiplier with VerboseMode := true } g metricsArray).self.isInitialized =
      (Apply env { multiplier with VerboseMode := false } g metricsArray).self.isInitialized ∧
    (Apply env { multiplier with VerboseMode := true } g metricsArray).self.Config =
      (Apply env { multiplier with VerboseMode := false } g metricsArray).self.Config := by
  have h := ensureInitialized_array_verbose env multiplier true false
  refine ⟨Apply_out_congr env _ _ g metricsArray h.1, ?_, ?_, ?_, ?_⟩
  · rw [Apply_globals_eq, Apply_globals_eq]
  · rw [Apply_self, Apply_self]; exact h.1
  · rw [Apply_self, Apply_self]; exact h.2.1
  · rw [Apply_self, Apply_self]; exact h.2.2

/-- The flag is not idle: it decides whether the change of a value is printed. -/
theorem verbose_mode_prints_example :
    (Apply exampleEnv (newMultiplier ["mem used_percent=100"] true) Globals.init
      [memRecord]).stdout =
      [LogLine.multiplied "mem" "used_percent" (.int64 50) (Flt.ofInt 100) (.int64 5000)] ∧
    (Apply exampleEnv (newMultiplier ["mem used_percent=100"] false) Globals.init
      [memRecord]).stdout = [] ∧
    (Apply exampleEnv (newMultiplier ["mem used_percent=100"] true) Globals.init
      [memRecord]).out =
      (Apply exampleEnv (newMultiplier ["mem used_percent=100"] false) Globals.init
        [memRecord]).out := by
  refine ⟨by decide, by decide, by decide⟩

/-! ## Failure of the record constructor -/

theorem rescaleMetric_of_error (env : Env) (multiplier : Multiplier) (r : Metric) (err : String)
    (h : multiplier.array.contains r.name = true)
    (hnew : env.newError r.name r.tags
      (rescaleFields env multiplier r.name r.fields.entries).1 r.time r.tp = some err) :
    (rescaleMetric env multiplier r).1 = r := by
  simp [rescaleMetric, h, metricNew, hnew]

theorem percentMetric_of_error (env : Env) (cpu : Int) (r : Metric) (err : String)
    (hnew : env.newError r.name r.tags (percentFields cpu r.fields.entries) r.time r.tp =
      some err) :
    percentMetric env cpu r = r := by
  unfold percentMetric metricNew
  split
  · simp [hnew]
  · rfl

theorem Multiply_withNewError (env : Env)
    (e : String → Map String → Map Value → Int → Nat → Option String) (v : Value) (f : Flt) :
    Multiply (env.withNewError e) v f = Multiply env v f := by
  cases v <;> rfl

theorem rescaleFields_withNewError (env : Env)
    (e : String → Map String → Map Value → Int → Nat → Option String) (multiplier : Multiplier)
    (name : String) (l : List (String × Value)) :
    rescaleFields (env.withNewError e) multiplier name l = rescaleFields env multiplier name l := by
  unfold rescaleFields
  congr 1

theorem initLines_withNewError (env : Env)
    (e : String → Map String → Map Value → Int → Nat → Option String) (l : List String) :
    ∀ array : Map (Map Flt), initLines (env.withNewError e) l array = initLines env l array := by
  induction l with
  | nil => intro array; rfl
  | cons str rest ih =>
    intro array
    simp only [initLines]
    have h1 : initLine (env.withNewError e) array str = initLine env array str := rfl
    rw [h1, ih]

theorem ensureInitialized_withNewError (env : Env)
    (e : String → Map String → Map Value → Int → Nat → Option String) (multiplier : Multiplier) :
    ensureInitialized (env.withNewError e) multiplier = ensureInitialized env multiplier := by
  simp only [ensureInitialized, Initialize, initLines_withNewError]

theorem cpu_available_withNewError (env : Env)
    (e : String → Map String → Map Value → Int → Nat → Option String) (g : Globals) :
    cpu_available (env.withNewError e) g = cpu_available env g := rfl

theorem rescaleMetric_withNewError (env : Env)
    (e : String → Map String → Map Value → Int → Nat → Option String) (multiplier : Multiplier)
    (r : Metric)
    (hagree : ∀ fields : Map Value,
      e r.name r.tags fields r.time r.tp = env.newError r.name r.tags fields r.time r.tp) :
    rescaleMetric (env.withNewError e) multiplier r = rescaleMetric env multiplier r := by
  simp only [rescaleMetric, metricNew, rescaleFields_withNewError]
  have h1 : (env.withNewError e).newError = e := rfl
  rw [h1, hagree]

theorem percentMetric_withNewError (env : Env)
    (e : String → Map String → Map Value → Int → Nat → Option String) (cpu : Int) (p : Metric)
    (hagree : ∀ fields : Map Value,
      e p.name p.tags fields p.time p.tp = env.newError p.name p.tags fields p.time p.tp) :
    percentMetric (env.withNewError e) cpu p = percentMetric env cpu p := by
  simp only [percentMetric, metricNew]
  have h1 : (env.withNewError e).newError = e := rfl
  rw [h1, hagree]

/-- C13: in the rescale pass a slot whose replacement record cannot be
constructed keeps the input record, and in the percentage pass it keeps the
record of the rescale pass; the accumulators, the instance and the slot of
every record for which the constructor answers the same are what they are
when the constructor answers differently elsewhere. -/
theorem construction_failure_keeps_record (env : Env)
    (e : String → Map String → Map Value → Int → Nat → Option String)
    (multiplier : Multiplier) (g : Globals) (metricsArray : List Metric) :
    (∀ (i : Nat) (r : Metric) (err : String), metricsArray[i]? = some r →
      (Apply env multiplier g metricsArray).self.array.contains r.name = true →
      env.newError r.name r.tags
        (rescaleFields env (Apply env multiplier g metricsArray).self r.name
          r.fields.entries).1 r.time r.tp = some err →
      (rescalePass env multiplier g metricsArray).out[i]? = some r) ∧
    (∀ (i : Nat) (p : Metric) (err : String),
      (rescalePass env multiplier g metricsArray).out[i]? = some p →
      env.newError p.name p.tags
        (percentFields (cpu_available env (Apply env multiplier g metricsArray).globals)
          p.fields.entries) p.time p.tp = some err →
      (Apply env multiplier g metricsArray).out[i]? = some p) ∧
    (Apply (env.withNewError e) multiplier g metricsArray).globals =
      (Apply env multiplier g metricsArray).globals ∧
    (Apply (env.withNewError e) multiplier g metricsArray).self =
      (Apply env multiplier g metricsArray).self ∧
    (∀ (j : Nat) (r : Metric), metricsArray[j]? = some r →
      (∀ fields : Map Value,
        e r.name r.tags fields r.time r.tp = env.newError r.name r.tags fields r.time r.tp) →
      (Apply (env.withNewError e) multiplier g metricsArray).out[j]? =
        (Apply env multiplier g metricsArray).out[j]?) := by
  have hself : (Apply (env.withNewError e) multiplier g metricsArray).self =
      (Apply env multiplier g metricsArray).self := by
    rw [Apply_self, Apply_self, ensureInitialized_withNewError]
  have hglob : (Apply (env.withNewError e) multiplier g metricsArray).globals =
      (Apply env multiplier g metricsArray).globals := by
    rw [Apply_globals_eq, Apply_globals_eq]
  refine ⟨?_, ?_, hglob, hself, ?_⟩
  · intro i r err hi hname hnew
    rw [rescalePass_out, List.getElem?_map, hi, Option.map_some',
      rescaleMetric_of_error env _ r err hname hnew]
  · intro i p err hi hnew
    rw [Apply_out_of_rescalePass, List.getElem?_map, hi, Option.map_some']
    congr 1
    unfold percentStep
    split
    · rfl
    · exact percentMetric_of_error env _ p err hnew
  · intro j r hj hagree
    rw [Apply_out_getElem?, Apply_out_getElem?, hj, Option.map_some', Option.map_some', hself,
      hglob, rescaleMetric_withNewError env e _ r hagree]
    congr 1
    have hs := rescaleMetric_shape env (Apply env multiplier g metricsArray).self r
    unfold percentStep
    split
    · rfl
    · rw [cpu_available_withNewError]
      apply percentMetric_withNewError
      intro fields
      rw [hs.1, hs.2.1, hs.2.2.1, hs.2.2.2]
      exact hagree fields

theorem construction_failure_keeps_record_witness :
    (Apply rejectingEnv otherMultiplier Globals.init [memCpuRecord, usageRecord]).out =
      [memCpuRecord, usagePercentRecord] ∧
    (Apply exampleEnv otherMultiplier Globals.init [memCpuRecord, usageRecord]).out =
      [{ memCpuRecord with fields :=
          ⟨[("totalmhz_average", .int64 2000), ("effectivecpu_average", .int 25),
            ("used_percent", .int64 5000)]⟩ }, usagePercentRecord] ∧
    (rescalePass rejectingEnv otherMultiplier Globals.init
      [memCpuRecord, usageRecord]).out[0]? = some memCpuRecord ∧
    (Apply rejectingEnv otherMultiplier Globals.init
      [memCpuRecord, usageRecord]).out[0]? = some memCpuRecord ∧
    (Apply (rejectingEnv.withNewError exampleEnv.newError) otherMultiplier Globals.init
      [memCpuRecord, usageRecord]).out[1]? =
      (Apply rejectingEnv otherMultiplier Globals.init [memCpuRecord, usageRecord]).out[1]? :=
  ⟨by decide, by decide,
    (construction_failure_keeps_record rejectingEnv exampleEnv.newError otherMultiplier
      Globals.init [memCpuRecord, usageRecord]).1 0 memCpuRecord "rejected"
      (by decide) (by decide) (by decide),
    (construction_failure_keeps_record rejectingEnv exampleEnv.newError otherMultiplier
      Globals.init [memCpuRecord, usageRecord]).2.1 0 memCpuRecord "rejected"
      (by decide) (by decide),
    (construction_failure_keeps_record rejectingEnv exampleEnv.newError otherMultiplier
      Globals.init [memCpuRecord, usageRecord]).2.2.2.2 1 usageRecord
      (by decide) (fun _ => rfl)⟩

/-! ## Factors that `toFloat` cannot convert -/

theorem toFloat_of_not_floatable (v : Value) (h : v.isFloatable = false) :
    toFloat v = (.fin false 0 0, [LogLine.cannotFloat v]) := by
  cases v <;> first | rfl | simp [Value.isFloatable] at h

theorem Flt.zero_mul_fin (s : Bool) (m : Nat) (e : Int) :
    Flt.mul (.fin false 0 0) (.fin s m e) = .fin s 0 0 := by
  simp [Flt.mul, roundFrac]

theorem Flt.zero_mul_of_isFinite (x : Flt) (h : x.isFinite = true) :
    ∃ s, Flt.mul (.fin false 0 0) x = .fin s 0 0 ∧ x.zeroLike = .fin s 0 0 := by
  cases x with
  | nan => simp [Flt.isFinite] at h
  | inf s => simp [Flt.isFinite] at h
  | fin s m e => exact ⟨s, Flt.zero_mul_fin s m e, rfl⟩

theorem Env.toInt_zero (env : Env) (k : IntKind) (s : Bool) : env.toInt k (.fin s 0 0) = 0 := by
  have hpos : ∀ b : Nat, (0 : Int) < ((2 ^ b : Nat) : Int) := fun b => by positivity
  have hr : k.inRange env 0 = true := by
    unfold IntKind.inRange
    split
    · have := hpos (k.bits env - 1)
      simp only [decide_eq_true_eq]
      omega
    · have := hpos (k.bits env)
      simp only [decide_eq_true_eq]
      omega
  cases s <;> simp [Env.toInt, Flt.trunc, Flt.signedNat, hr]

theorem roundFrac_binary32_zero (s : Bool) : roundFrac binary32 s 0 1 0 = .fin s 0 0 := by
  simp [roundFrac]

/-- With the factor zero, a finite number of a supported type becomes the zero
of its type. -/
theorem Multiply_zero_factor (env : Env) (x : Value) (h : x.isFiniteNumber = true) :
    (Multiply env x (.fin false 0 0)).1 = x.zeroLike := by
  cases x with
  | int data =>
    obtain ⟨s, hs, _⟩ := Flt.zero_mul_of_isFinite (Flt.ofInt data) h
    simp [Multiply, hs, Env.toInt_zero, Value.zeroLike]
  | uint data =>
    obtain ⟨s, hs, _⟩ := Flt.zero_mul_of_isFinite (Flt.ofInt data) h
    simp [Multiply, hs, Env.toInt_zero, Value.zeroLike]
  | int32 data =>
    obtain ⟨s, hs, _⟩ := Flt.zero_mul_of_isFinite (Flt.ofInt data) h
    simp [Multiply, hs, Env.toInt_zero, Value.zeroLike]
  | uint32 data =>
    obtain ⟨s, hs, _⟩ := Flt.zero_mul_of_isFinite (Flt.ofInt data) h
    simp [Multiply, hs, Env.toInt_zero, Value.zeroLike]
  | int64 data =>
    obtain ⟨s, hs, _⟩ := Flt.zero_mul_of_isFinite (Flt.ofInt data) h
    simp [Multiply, hs, Env.toInt_zero, Value.zeroLike]
  | uint64 data =>
    obtain ⟨s, hs, _⟩ := Flt.zero_mul_of_isFinite (Flt.ofInt data) h
    simp [Multiply, hs, Env.toInt_zero, Value.zeroLike]
  | float32 data =>
    obtain ⟨s, hs, hz⟩ := Flt.zero_mul_of_isFinite data h
    simp [Multiply, hs, hz, Value.zeroLike, Flt.toF32, roundFrac_binary32_zero]
  | float64 data =>
    obtain ⟨s, hs, hz⟩ := Flt.zero_mul_of_isFinite data h
    simp [Multiply, hs, hz, Value.zeroLike]
  | string data => simp [Value.isFiniteNumber] at h
  | bool data => simp [Value.isFiniteNumber] at h
  | other ty repr => simp [Value.isFiniteNumber] at h

theorem contains_of_factorOf (array : Map (Map Flt)) (n f : String) (z : Flt)
    (h : factorOf array n f = some z) : array.contains n = true := by
  unfold factorOf at h
  unfold Map.contains
  cases hg : array.get n with
  | some keeper => rfl
  | none =>
    rw [hg] at h
    simp [Map.empty, Map.get, Map.lookupKey] at h

/-- The value of a field in the output when the rescaled record is
constructed and carries no `effectivecpu_average` field. -/
theorem Apply_get_of_rescaled (env : Env) (multiplier : Multiplier) (g : Globals)
    (l : List Metric) (i : Nat) (r : Metric) (f : String) (v : Value)
    (hi : l[i]? = some r)
    (hname : (Apply env multiplier g l).self.array.contains r.name = true)
    (hnew : env.newError r.name r.tags
      (rescaleFields env (Apply env multiplier g l).self r.name r.fields.entries).1
      r.time r.tp = none)
    (heff : r.fields.contains "effectivecpu_average" = false)
    (hv : r.fields.get f = some v) :
    ((Apply env multiplier g l).out[i]?).map (fun o => o.fields.get f) =
      some (some (match factorOf (Apply env multiplier g l).self.array r.name f with
        | some factor => (Multiply env v factor).1
        | none => v)) := by
  have hres := rescaleMetric_of_ok env _ r hname hnew
  have hkeep : percentStep env (Apply env multiplier g l).globals
      (rescaleMetric env (Apply env multiplier g l).self r).1 =
      (rescaleMetric env (Apply env multiplier g l).self r).1 := by
    unfold percentStep
    split
    · rfl
    · apply percentMetric_of_absent
      rw [rescaleMetric_contains]
      exact heff
  rw [Apply_out_getElem?, hi, Option.map_some', Option.map_some', hkeep, hres]
  congr 2
  show (rescaleFields env _ r.name r.fields.entries).1.get f = _
  rw [rescaleFields_fst, Map.get_setAll_entries, hv, Option.map_some', rescaleField_fst]
  rfl

/-- The claim C19 as written fails for an infinite field value: with the
factor `0` stored for `mem.used_percent` from the boolean of the line
`mem used_percent=true`, the field `used_percent=+Inf` becomes NaN, not zero. -/
theorem zero_factor_times_infinity_is_nan :
    factorOf (Apply boolEnv (newMultiplier ["mem used_percent=true"] false) Globals.init
      [infiniteMemRecord]).self.array "mem" "used_percent" = some (.fin false 0 0) ∧
    (Value.float64 (.inf false)).isSupported = true ∧
    (Apply boolEnv (newMultiplier ["mem used_percent=true"] false) Globals.init
      [infiniteMemRecord]).out =
      [{ infiniteMemRecord with fields := ⟨[("used_percent", .float64 .nan)]⟩ }] := by
  refine ⟨by decide, by decide, by decide⟩

/-- C19 (amended): a value whose type is none of `int`, `int32`, `int64`,
`float32`, `float64` is coerced to `0` by `toFloat`; when it is the value of
the field `f` in the last decoded configuration line for the name `n`, the
table built on the first call holds `table[n][f] = 0`, `Multiply` with that
factor turns every finite number of a supported type into the zero of its
type, and `Apply` writes that zero into the field `f` of a record named `n`
(the record being constructed and carrying no `effectivecpu_average`). -/
theorem unconvertible_factor_is_zero (env : Env) (multiplier : Multiplier) (g : Globals)
    (metricsArray : List Metric) (i : Nat) (r : Metric) (n f : String) (v x : Value)
    (hv : v.isFloatable = false)
    (hlast : lastValue (decodedLines env multiplier.Config) n f = some v)
    (hfresh : multiplier.isInitialized = false)
    (hi : metricsArray[i]? = some r)
    (hn : r.name = n)
    (hx : r.fields.get f = some x)
    (hfin : x.isFiniteNumber = true)
    (hnew : env.newError r.name r.tags
      (rescaleFields env (Apply env multiplier g metricsArray).self r.name r.fields.entries).1
      r.time r.tp = none)
    (heff : r.fields.contains "effectivecpu_average" = false) :
    (toFloat v).1 = .fin false 0 0 ∧
    factorOf (Apply env multiplier g metricsArray).self.array n f = some (.fin false 0 0) ∧
    (Multiply env x (.fin false 0 0)).1 = x.zeroLike ∧
    ((Apply env multiplier g metricsArray).out[i]?).map (fun o => o.fields.get f) =
      some (some x.zeroLike) := by
  have h1 : (toFloat v).1 = .fin false 0 0 := by rw [toFloat_of_not_floatable v hv]
  have htab : factorOf (Apply env multiplier g metricsArray).self.array n f =
      some (.fin false 0 0) := by
    rw [Apply_self, ensureInitialized_of_fresh env multiplier hfresh]
    simp only [Initialize]
    rw [factorOf_initLines, hlast]
    simp only [h1]
  have h3 := Multiply_zero_factor env x hfin
  refine ⟨h1, htab, h3, ?_⟩
  subst hn
  have hname := contains_of_factorOf _ _ _ _ htab
  rw [Apply_get_of_rescaled env multiplier g metricsArray i r f x hi hname hnew heff hx, htab]
  simp only [h3]

theorem unconvertible_factor_is_zero_witness :
    (Value.bool true).isFloatable = false ∧
    lastValue (decodedLines boolEnv (newMultiplier ["mem used_percent=true"] false).Config)
      "mem" "used_percent" = some (Value.bool true) ∧
    (newMultiplier ["mem used_percent=true"] false).isInitialized = false ∧
    [memRecord][0]? = some memRecord ∧
    memRecord.fields.get "used_percent" = some (Value.int64 50) ∧
    (Value.int64 50).isFiniteNumber = true ∧
    memRecord.fields.contains "effectivecpu_average" = false ∧
    (Apply boolEnv (newMultiplier ["mem used_percent=true"] false) Globals.init
      [memRecord]).out = [{ memRecord with fields := ⟨[("used_percent", .int64 0)]⟩ }] ∧
    ((toFloat (Value.bool true)).1 = .fin false 0 0 ∧
    factorOf (Apply boolEnv (newMultiplier ["mem used_percent=true"] false) Globals.init
      [memRecord]).self.array "mem" "used_percent" = some (.fin false 0 0) ∧
    (Multiply boolEnv (Value.int64 50) (.fin false 0 0)).1 = (Value.int64 50).zeroLike ∧
    ((Apply boolEnv (newMultiplier ["mem used_percent=true"] false) Globals.init
      [memRecord]).out[0]?).map (fun o => o.fields.get "used_percent") =
      some (some (Value.int64 50).zeroLike)) :=
  ⟨by decide, by decide, by decide, by decide, by decide, by decide, by decide, by decide,
    unconvertible_factor_is_zero boolEnv (newMultiplier ["mem used_percent=true"] false)
      Globals.init [memRecord] 0 memRecord "mem" "used_percent" (Value.bool true)
      (Value.int64 50) (by decide) (by decide) (by decide) (by decide) (by decide) (by decide)
      (by decide) (by decide) (by decide)⟩

end multiplier
